import Mathlib

/-!
Decode session of `Mlu200Decoder` (src/easycodec/decoder_mlu200.cpp).

A shallow embedding of the decode-session state machine.  The class fields are
the fields of the structure `Mlu200Decoder`; every member function is a pure
function from the state before the call to the returned value and the state
after it.  Two things live outside the class and are made explicit:

* the accelerator (cncodec): every call made to it and every caller-supplied
  callback invoked is appended to the history field `trace`; the value the
  accelerator returns is an argument of the member function that makes the call;
* the other threads: a member function runs atomically, except `DestroyDecoder`.
  Where it blocks (`eos_cond_.wait`, the polling loop of `WaitAllBuffersBack`) the
  operations of the other threads are taken, one at a time, from a schedule; and
  since it holds no lock between the last test of `WaitAllBuffersBack` and
  `WriteLockGuard lg(handle_lk_)`, what is left of the schedule when the polling
  loop ends runs before the channel is stopped and destroyed.
-/

namespace edk

/-- Value of `EasyDecode::Status` (the specification writes STOPPED for `STOP`). -/
inductive Status
  | RUNNING
  | STOP
  | ERROR
  | EOS
  deriving DecidableEq, Repr

/-- Kinds of `edk::Exception` thrown by the feed path. -/
inductive Exception
  | INIT_FAILED
  | TIMEOUT
  | INTERNAL
  deriving DecidableEq, Repr

/-- Modelled from the spec: the value returned by an accelerator entry point.  The cncodec
header that declares `CNCODEC_SUCCESS` and `CNCODEC_TIMEOUT` is not part of the sources; the
specification (section 6) gives the three outcomes Success, Timeout and Error(code).  The test
`-CNCODEC_TIMEOUT == ecode` is `ecode = Timeout`, the test `CNCODEC_SUCCESS != ecode` is
`ecode ≠ Success`. -/
inductive cncodecRet
  | Success
  | Timeout
  | Error (code : Int)
  deriving DecidableEq, Repr

/-- Modelled from the spec: the bits of the `flags` word of a decoder input (`CNVIDEODEC_FLAG_*`,
`CNJPEGDEC_FLAG_*`, declared in the absent cncodec headers), one boolean per named bit. -/
structure InputFlags where
  EOS : Bool
  TIMESTAMP : Bool
  END_OF_FRAME : Bool
  deriving DecidableEq, Repr

/-- The compressed packet handed to `FeedData`: `CnPacket`. -/
structure CnPacket where
  data : Nat
  length : Nat
  pts : Nat
  deriving DecidableEq, Repr

/-- Input descriptor of `cnvideoDecFeedData`. -/
structure cnvideoDecInput where
  streamBuf : Nat
  streamLength : Nat
  pts : Nat
  flags : InputFlags
  deriving DecidableEq, Repr

/-- Input descriptor of `cnjpegDecFeedData`. -/
structure cnjpegDecInput where
  streamBuffer : Nat
  streamLength : Nat
  pts : Nat
  flags : InputFlags
  deriving DecidableEq, Repr

/-- The fields of `cnvideoDecCreateInfo` that the session updates after creation. -/
structure cnvideoDecCreateInfo where
  codec : Nat
  width : Nat
  height : Nat
  inputBufNum : Nat
  outputBufNum : Nat
  deriving DecidableEq, Repr

/-- The fields of `cnvideoDecSequenceInfo` read by `ReceiveSequence`. -/
structure cnvideoDecSequenceInfo where
  codec : Nat
  width : Nat
  height : Nat
  minInputBufNum : Nat
  minOutputBufNum : Nat
  deriving DecidableEq, Repr

/-- A decoded frame as the accelerator describes it, `cncodecFrame`.  `addr` is the address of
the descriptor itself: the source uses it as the buffer token (`buf_id`). -/
structure cncodecFrame where
  addr : Nat
  channel : Nat
  width : Nat
  height : Nat
  planeNum : Nat
  stride : List Nat
  plane : List Nat
  deriving DecidableEq, Repr

/-- The package of a new-frame event.  `cnjpegDecOutput` and `cnvideoDecOutput` both carry a
`pts` and a `frame`; the source picks the layout from `jpeg_decode_`. -/
structure cncodecOutput where
  pts : Nat
  frame : cncodecFrame
  deriving DecidableEq, Repr

/-- The frame descriptor handed to the frame callback, `CnFrame`. -/
structure CnFrame where
  buf_id : Nat
  pts : Nat
  height : Nat
  width : Nat
  frame_size : Nat
  pformat : Nat
  device_id : Int
  channel_id : Nat
  n_planes : Nat
  strides : List Nat
  ptrs : List Nat
  deriving DecidableEq, Repr

/-- What `include/easycodec/vformat.h` (not among the sources) contributes to `ReceiveFrame`:
`finfo` is the value of a default-constructed `CnFrame finfo;` and `GetPlaneSize` is the member
function `CnFrame::GetPlaneSize`. -/
structure VFormat where
  finfo : CnFrame
  GetPlaneSize : CnFrame → Nat → Nat

/-- The fields of `EasyDecode::Attr` read after construction.  A callback is represented by
whether it is registered (non-null). -/
structure Attr where
  dev_id : Int
  pixel_format : Nat
  frame_callback : Bool
  eos_callback : Bool
  deriving DecidableEq, Repr

/-- Event types delivered to `Mlu200EventHandler`.  `STREAM_CORRUPT` is the enumerator that
exists when `CNCODEC_VERSION >= 10600`; `other` is any value without a `case` of its own. -/
inductive cncodecCbEventType
  | NEW_FRAME
  | SEQUENCE
  | EOS
  | SW_RESET
  | HW_RESET
  | OUT_OF_MEMORY
  | ABORT_ERROR
  | STREAM_CORRUPT
  | other (n : Nat)
  deriving DecidableEq, Repr

/-- One entry of the history: a call of an accelerator entry point (with the handle and the
arguments it was given) or an invocation of a caller-supplied callback. -/
inductive Effect
  | cnvideoDecFeedData (handle : Nat) (input : cnvideoDecInput) (timeout : Nat)
  | cnjpegDecFeedData (handle : Nat) (input : cnjpegDecInput) (timeout : Nat)
  | cnvideoDecAbort (handle : Nat)
  | cnjpegDecAbort (handle : Nat)
  | cnvideoDecStop (handle : Nat)
  | cnvideoDecDestroy (handle : Nat)
  | cnjpegDecDestroy (handle : Nat)
  | cnvideoDecReleaseReference (handle : Nat) (frame : Nat)
  | cnjpegDecReleaseReference (handle : Nat) (frame : Nat)
  | cnvideoDecAddReference (handle : Nat) (frame : Nat)
  | cnjpegDecAddReference (handle : Nat) (frame : Nat)
  | cnvideoDecStart (handle : Nat) (params : cnvideoDecCreateInfo)
  | frame_callback (finfo : CnFrame)
  | eos_callback
  deriving DecidableEq, Repr

/-- The null pointer. -/
def nullptr : Nat := 0

/-- The data members of `Mlu200Decoder` (with those of its base `Decoder` that the member
functions touch), and the history `trace`.  `handle_` is a pointer, `nullptr` when there is no
accelerator channel; `vpu_pts_map_` lists the bindings of the `unordered_map`, one per key;
`out_frame_list_` is the `std::list` of lent buffer tokens. -/
structure Mlu200Decoder where
  attr_ : Attr
  status_ : Status
  minimum_buf_cnt_ : Nat
  handle_ : Nat
  vparams_ : cnvideoDecCreateInfo
  packets_count_ : Nat
  frames_count_ : Nat
  send_eos_ : Bool
  got_eos_ : Bool
  jpeg_decode_ : Bool
  pts_key_ : Nat
  vpu_pts_map_ : List (Nat × Nat)
  out_frame_list_ : List Nat
  trace : List Effect
  deriving DecidableEq, Repr

/-- Append one entry to the history. -/
def Mlu200Decoder.emit (s : Mlu200Decoder) (e : Effect) : Mlu200Decoder :=
  { s with trace := s.trace ++ [e] }

/-- `vpu_pts_map_.find(key)`: the value bound to `key`, if any. -/
def map_find (m : List (Nat × Nat)) (key : Nat) : Option Nat :=
  m.lookup key

/-- `vpu_pts_map_.erase(iter)`: drop the binding of `key`. -/
def map_erase (m : List (Nat × Nat)) (key : Nat) : List (Nat × Nat) :=
  m.filter (fun kv => kv.1 != key)

/-- `vpu_pts_map_[key] = v`: bind `key` to `v`, replacing a binding it already has. -/
def map_assign (m : List (Nat × Nat)) (key : Nat) (v : Nat) : List (Nat × Nat) :=
  (key, v) :: map_erase m key

/-- `Mlu200Decoder::SetVpuTimestamp`: `key = pts_key_++` on a `uint32_t`, then
`vpu_pts_map_[key] = pts`; returns the key. -/
def SetVpuTimestamp (s : Mlu200Decoder) (pts : Nat) : Nat × Mlu200Decoder :=
  let key := s.pts_key_
  (key, { s with pts_key_ := (s.pts_key_ + 1) % 2 ^ 32,
                 vpu_pts_map_ := map_assign s.vpu_pts_map_ key pts })

/-- `Mlu200Decoder::GetVpuTimestamp(key, pts)`.  `pts` tells whether the out-pointer is
non-null.  The result is the returned boolean, the value written through the pointer (if any)
and the state after the call. -/
def GetVpuTimestamp (s : Mlu200Decoder) (key : Nat) (pts : Bool) :
    (Bool × Option Nat) × Mlu200Decoder :=
  match map_find s.vpu_pts_map_ key with
  | some v =>
    if pts then
      ((true, some v), { s with vpu_pts_map_ := map_erase s.vpu_pts_map_ key })
    else
      ((false, none), { s with vpu_pts_map_ := map_erase s.vpu_pts_map_ key })
  | none => ((false, none), s)

/-- The retry loop of `FeedVideoData`: `while (retry_time--)`.  The argument is the value of
`retry_time` tested by the loop condition; `ecode i` is what the accelerator answers to the
call number `i` (from 0). -/
def FeedVideoData.loop (input : cnvideoDecInput) (ecode : Nat → cncodecRet) :
    Nat → Mlu200Decoder → Except Exception Unit × Mlu200Decoder
  | 0, s => (.ok (), s)
  | retry_time + 1, s =>
    let s1 := s.emit (.cnvideoDecFeedData s.handle_ input 10000)
    match ecode (2 - retry_time) with
    | .Timeout =>
      if retry_time = 0 then
        let s2 := (GetVpuTimestamp s1 (input.pts % 2 ^ 32) false).2
        (.error .TIMEOUT, { s2 with status_ := .ERROR })
      else
        FeedVideoData.loop input ecode retry_time s1
    | .Success => (.ok (), s1)
    | .Error _ =>
      let s2 := (GetVpuTimestamp s1 (input.pts % 2 ^ 32) false).2
      (.error .INTERNAL, { s2 with status_ := .ERROR })

/-- `Mlu200Decoder::FeedVideoData`. -/
def FeedVideoData (s : Mlu200Decoder) (packet : CnPacket) (ecode : Nat → cncodecRet) :
    Except Exception Unit × Mlu200Decoder :=
  let r := SetVpuTimestamp s packet.pts
  let input : cnvideoDecInput :=
    { streamBuf := packet.data, streamLength := packet.length, pts := r.1,
      flags := { EOS := false, TIMESTAMP := true, END_OF_FRAME := true } }
  match FeedVideoData.loop input ecode 3 r.2 with
  | (.ok _, s1) => (.ok (), { s1 with packets_count_ := (s1.packets_count_ + 1) % 2 ^ 32 })
  | (.error e, s1) => (.error e, s1)

/-- The retry loop of `FeedJpegData`, as `FeedVideoData.loop`. -/
def FeedJpegData.loop (input : cnjpegDecInput) (ecode : Nat → cncodecRet) :
    Nat → Mlu200Decoder → Except Exception Unit × Mlu200Decoder
  | 0, s => (.ok (), s)
  | retry_time + 1, s =>
    let s1 := s.emit (.cnjpegDecFeedData s.handle_ input 10000)
    match ecode (2 - retry_time) with
    | .Timeout =>
      if retry_time = 0 then
        let s2 := (GetVpuTimestamp s1 (input.pts % 2 ^ 32) false).2
        (.error .TIMEOUT, { s2 with status_ := .ERROR })
      else
        FeedJpegData.loop input ecode retry_time s1
    | .Success => (.ok (), s1)
    | .Error _ =>
      let s2 := (GetVpuTimestamp s1 (input.pts % 2 ^ 32) false).2
      (.error .INTERNAL, { s2 with status_ := .ERROR })

/-- `Mlu200Decoder::FeedJpegData`. -/
def FeedJpegData (s : Mlu200Decoder) (packet : CnPacket) (ecode : Nat → cncodecRet) :
    Except Exception Unit × Mlu200Decoder :=
  let input : cnjpegDecInput :=
    { streamBuffer := packet.data, streamLength := packet.length, pts := packet.pts,
      flags := { EOS := false, TIMESTAMP := true, END_OF_FRAME := false } }
  FeedJpegData.loop input ecode 3 s

/-- `Mlu200Decoder::FeedData`. -/
def FeedData (s : Mlu200Decoder) (packet : CnPacket) (ecode : Nat → cncodecRet) :
    Except Exception Bool × Mlu200Decoder :=
  if s.handle_ = nullptr then
    (.ok false, s)
  else if s.send_eos_ then
    (.ok false, s)
  else
    match (if s.jpeg_decode_ then FeedJpegData s packet ecode
           else FeedVideoData s packet ecode) with
    | (.ok _, s1) => (.ok true, s1)
    | (.error e, s1) => (.error e, s1)

/-- The end-of-stream marker submitted by `FeedEos` in streaming-video mode. -/
def eosVideoInput : cnvideoDecInput :=
  { streamBuf := nullptr, streamLength := 0, pts := 0,
    flags := { EOS := true, TIMESTAMP := false, END_OF_FRAME := false } }

/-- The end-of-stream marker submitted by `FeedEos` in still-image mode. -/
def eosJpegInput : cnjpegDecInput :=
  { streamBuffer := nullptr, streamLength := 0, pts := 0,
    flags := { EOS := true, TIMESTAMP := false, END_OF_FRAME := false } }

/-- `Mlu200Decoder::FeedEos`; `ecode` is the accelerator's answer to the marker. -/
def FeedEos (s : Mlu200Decoder) (ecode : cncodecRet) : Except Exception Bool × Mlu200Decoder :=
  if s.handle_ = nullptr then
    (.ok false, s)
  else if s.status_ = .ERROR then
    (.ok false, s)
  else if s.send_eos_ then
    (.ok false, s)
  else
    let s1 :=
      if s.jpeg_decode_ then s.emit (.cnjpegDecFeedData s.handle_ eosJpegInput 10000)
      else s.emit (.cnvideoDecFeedData s.handle_ eosVideoInput 10000)
    match ecode with
    | .Timeout => (.error .TIMEOUT, { s1 with status_ := .ERROR })
    | .Error _ => (.error .INTERNAL, { s1 with status_ := .ERROR })
    | .Success => (.ok true, { s1 with send_eos_ := true })

/-- `Mlu200Decoder::AbortDecoder`. -/
def AbortDecoder (s : Mlu200Decoder) : Mlu200Decoder :=
  if s.handle_ ≠ nullptr then
    let s1 :=
      if s.jpeg_decode_ then s.emit (.cnjpegDecAbort s.handle_)
      else s.emit (.cnvideoDecAbort s.handle_)
    { s1 with handle_ := nullptr, status_ := .STOP, send_eos_ := true, got_eos_ := true }
  else
    s

/-- `Mlu200Decoder::ReleaseBuffer`; `ret` is the accelerator's answer to the release of the
reference. -/
def ReleaseBuffer (s : Mlu200Decoder) (buf_id : Nat) (ret : cncodecRet) : Bool × Mlu200Decoder :=
  if s.handle_ ≠ nullptr then
    if buf_id ∈ s.out_frame_list_ then
      let s1 := { s with out_frame_list_ := s.out_frame_list_.erase buf_id }
      let s2 :=
        if s1.jpeg_decode_ then s1.emit (.cnjpegDecReleaseReference s1.handle_ buf_id)
        else s1.emit (.cnvideoDecReleaseReference s1.handle_ buf_id)
      if ret = .Success then (true, s2) else (false, s2)
    else
      (false, s)
  else
    (false, s)

/-- The body of the plane loop of `ReceiveFrame` for plane `pi`. -/
def ReceiveFrame.plane (vf : VFormat) (frame : cncodecFrame) (finfo : CnFrame) (pi : Nat) :
    CnFrame :=
  let f1 := { finfo with strides := finfo.strides.set pi (frame.stride.getD pi 0),
                         ptrs := finfo.ptrs.set pi (frame.plane.getD pi 0) }
  { f1 with frame_size := (f1.frame_size + vf.GetPlaneSize f1 pi) % 2 ^ 64 }

/-- The frame descriptor `ReceiveFrame` assembles from `frame`, starting from `finfo` (whose
`pts` is already settled). -/
def ReceiveFrame.describe (vf : VFormat) (s : Mlu200Decoder) (frame : cncodecFrame)
    (finfo : CnFrame) : CnFrame :=
  let f0 := { finfo with device_id := s.attr_.dev_id, channel_id := frame.channel,
                         buf_id := frame.addr, width := frame.width, height := frame.height,
                         n_planes := frame.planeNum, frame_size := 0,
                         pformat := s.attr_.pixel_format }
  (List.range frame.planeNum).foldl (ReceiveFrame.plane vf frame) f0

/-- The first part of `ReceiveFrame`: settle `finfo.pts`.  In still-image mode it is the `pts`
of the package; in streaming-video mode the package's `pts` (narrowed to the `uint32_t` key) is
looked up with `GetVpuTimestamp`, and `finfo.pts` is assigned only when the lookup succeeds. -/
def ReceiveFrame.timestamp (vf : VFormat) (s : Mlu200Decoder) (out : cncodecOutput) :
    CnFrame × Mlu200Decoder :=
  if s.jpeg_decode_ then
    ({ vf.finfo with pts := out.pts }, s)
  else
    match GetVpuTimestamp s (out.pts % 2 ^ 32) true with
    | ((true, some usr_pts), s1) => ({ vf.finfo with pts := usr_pts }, s1)
    | (_, s1) => (vf.finfo, s1)

/-- The second part of `ReceiveFrame`: drop an empty frame, otherwise assemble the descriptor
and, when a frame callback is registered and the handle is live, add a reference, record the
token, call the callback and count the frame. -/
def ReceiveFrame.deliver (vf : VFormat) (s : Mlu200Decoder) (frame : cncodecFrame)
    (finfo0 : CnFrame) : Mlu200Decoder :=
  if frame.width = 0 ∨ frame.height = 0 ∨ frame.planeNum = 0 then
    s
  else
    let finfo := ReceiveFrame.describe vf s frame finfo0
    if s.attr_.frame_callback then
      if s.handle_ ≠ nullptr then
        let s2 :=
          if s.jpeg_decode_ then s.emit (.cnjpegDecAddReference s.handle_ frame.addr)
          else s.emit (.cnvideoDecAddReference s.handle_ frame.addr)
        let s3 := { s2 with out_frame_list_ := s2.out_frame_list_ ++ [finfo.buf_id] }
        let s4 := s3.emit (.frame_callback finfo)
        { s4 with frames_count_ := (s4.frames_count_ + 1) % 2 ^ 32 }
      else
        s
    else
      s

/-- `Mlu200Decoder::ReceiveFrame`. -/
def ReceiveFrame (vf : VFormat) (s : Mlu200Decoder) (out : cncodecOutput) : Mlu200Decoder :=
  let r := ReceiveFrame.timestamp vf s out
  ReceiveFrame.deliver vf r.2 out.frame r.1

/-- `Mlu200Decoder::ReceiveSequence`; `ecode` is the accelerator's answer to
`cnvideoDecStart`. -/
def ReceiveSequence (s : Mlu200Decoder) (info : cnvideoDecSequenceInfo) (ecode : cncodecRet) :
    Int × Mlu200Decoder :=
  let vp0 := { s.vparams_ with codec := info.codec, width := info.width, height := info.height }
  let vp1 := if info.minInputBufNum > vp0.inputBufNum then
      { vp0 with inputBufNum := info.minInputBufNum } else vp0
  let vp2 := if info.minOutputBufNum > vp1.outputBufNum then
      { vp1 with outputBufNum := info.minOutputBufNum } else vp1
  let s1 := { s with vparams_ := vp2, minimum_buf_cnt_ := info.minOutputBufNum }
  let s2 := s1.emit (.cnvideoDecStart s1.handle_ s1.vparams_)
  if ecode ≠ .Success then (-1, s2) else (0, s2)

/-- `Mlu200Decoder::ReceiveEOS`. -/
def ReceiveEOS (s : Mlu200Decoder) : Mlu200Decoder :=
  let s1 := { s with status_ := .EOS }
  let s2 := if s1.attr_.eos_callback then s1.emit .eos_callback else s1
  { s2 with got_eos_ := true }

/-- `Mlu200Decoder::ReceiveEvent`. -/
def ReceiveEvent (s : Mlu200Decoder) (type : cncodecCbEventType) : Mlu200Decoder :=
  match type with
  | .EOS => ReceiveEOS s
  | .SW_RESET => { s with status_ := .ERROR }
  | .HW_RESET => { s with status_ := .ERROR }
  | .OUT_OF_MEMORY => { s with status_ := .ERROR }
  | .ABORT_ERROR => { s with status_ := .ERROR }
  | .STREAM_CORRUPT => s
  | _ => { s with status_ := .ERROR }

/-- An operation on the session other than `DestroyDecoder`: a call by a caller thread or an
event delivered by the accelerator thread, with the answers the accelerator gives to the calls
made while it runs. -/
inductive Op
  | FeedData (packet : CnPacket) (ecode : Nat → cncodecRet)
  | FeedEos (ecode : cncodecRet)
  | ReleaseBuffer (buf_id : Nat) (ret : cncodecRet)
  | AbortDecoder
  | ReceiveFrame (out : cncodecOutput)
  | ReceiveSequence (info : cnvideoDecSequenceInfo) (ecode : cncodecRet)
  | ReceiveEvent (type : cncodecCbEventType)

/-- The state after an operation (its returned value, or the exception it throws, is dropped:
the session object lives on in either case). -/
def Op.exec (vf : VFormat) (s : Mlu200Decoder) : Op → Mlu200Decoder
  | .FeedData packet ecode => (edk.FeedData s packet ecode).2
  | .FeedEos ecode => (edk.FeedEos s ecode).2
  | .ReleaseBuffer buf_id ret => (edk.ReleaseBuffer s buf_id ret).2
  | .AbortDecoder => edk.AbortDecoder s
  | .ReceiveFrame out => edk.ReceiveFrame vf s out
  | .ReceiveSequence info ecode => (edk.ReceiveSequence s info ecode).2
  | .ReceiveEvent type => edk.ReceiveEvent s type

/-- The state after a sequence of operations made one after the other. -/
def Op.run (vf : VFormat) : Mlu200Decoder → List Op → Mlu200Decoder
  | s, [] => s
  | s, o :: ops => Op.run vf (o.exec vf s) ops

/-- The wait `eos_cond_.wait(eos_lk, [this] { return got_eos_; })` of `DestroyDecoder`: the
thread is blocked until `got_eos_` holds, while the other threads run the operations of the
schedule `env`.  The result is the state in which the wait ends and the rest of the schedule,
or `none` when the schedule ends with the thread still blocked. -/
def waitEos (vf : VFormat) : Mlu200Decoder → List Op → Option (Mlu200Decoder × List Op)
  | s, [] => if s.got_eos_ then some (s, []) else none
  | s, o :: env => if s.got_eos_ then some (s, o :: env) else waitEos vf (o.exec vf s) env

/-- `Mlu200Decoder::WaitAllBuffersBack`: each turn of the loop leaves when the list is empty,
returns when the handle is null, and otherwise yields, which lets another thread run the next
operation of the schedule `env`.  `none` when the schedule ends with the loop still polling. -/
def WaitAllBuffersBack (vf : VFormat) : Mlu200Decoder → List Op → Option (Mlu200Decoder × List Op)
  | s, [] =>
    if s.out_frame_list_.isEmpty then some (s, [])
    else if s.handle_ = nullptr then some (s, [])
    else none
  | s, o :: env =>
    if s.out_frame_list_.isEmpty then some (s, o :: env)
    else if s.handle_ = nullptr then some (s, o :: env)
    else WaitAllBuffersBack vf (o.exec vf s) env

/-- `DestroyDecoder` up to and including the `try` block: abort on `ERROR`, store `STOP`, force
the EOS flags when there is no handle, send EOS if it was never sent.  The boolean tells
whether `FeedEos` threw into the `catch` (which only logs). -/
def DestroyDecoder.sendEos (s : Mlu200Decoder) (ecode : cncodecRet) : Bool × Mlu200Decoder :=
  let s1 := if s.status_ = .ERROR ∧ s.handle_ ≠ nullptr then AbortDecoder s else s
  let s2 := { s1 with status_ := .STOP }
  let s3 := if s2.handle_ = nullptr then { s2 with send_eos_ := true, got_eos_ := true } else s2
  if !s3.got_eos_ && !s3.send_eos_ then
    match FeedEos s3 ecode with
    | (.ok _, s4) => (false, s4)
    | (.error _, s4) => (true, s4)
  else
    (false, s3)

/-- `DestroyDecoder` up to the return of `WaitAllBuffersBack`: `DestroyDecoder.sendEos`, the
wait for `got_eos_` (skipped when `FeedEos` threw: the exception leaves the `try` block), then
`WaitAllBuffersBack`.  The result is the state in which `WaitAllBuffersBack` returns and the
part of the schedule not yet run. -/
def DestroyDecoder.drain (vf : VFormat) (s : Mlu200Decoder) (ecode : cncodecRet)
    (env : List Op) : Option (Mlu200Decoder × List Op) :=
  match DestroyDecoder.sendEos s ecode with
  | (true, s4) => WaitAllBuffersBack vf s4 env
  | (false, s4) =>
    if !s4.got_eos_ then
      match waitEos vf s4 env with
      | some (s5, env1) => WaitAllBuffersBack vf s5 env1
      | none => none
    else
      WaitAllBuffersBack vf s4 env

/-- The write-locked end of `DestroyDecoder`: stop and destroy the channel, null the handle. -/
def DestroyDecoder.release (s : Mlu200Decoder) : Mlu200Decoder :=
  if s.handle_ ≠ nullptr then
    let s1 :=
      if s.jpeg_decode_ then s.emit (.cnjpegDecDestroy s.handle_)
      else (s.emit (.cnvideoDecStop s.handle_)).emit (.cnvideoDecDestroy s.handle_)
    { s1 with handle_ := nullptr }
  else
    s

/-- `DestroyDecoder` up to `WriteLockGuard lg(handle_lk_)`: the state in which the write lock
is acquired.  `WaitAllBuffersBack` has returned and no lock is held until then, so the other
threads run what is left of the schedule in between. -/
def DestroyDecoder.lock (vf : VFormat) (s : Mlu200Decoder) (ecode : cncodecRet)
    (env : List Op) : Option Mlu200Decoder :=
  (DestroyDecoder.drain vf s ecode env).map (fun r => Op.run vf r.1 r.2)

/-- `Mlu200Decoder::DestroyDecoder`.  `ecode` answers the EOS marker if one is sent; `env` is
the schedule of the other threads during the call: its operations run one at a time while this
thread is blocked, and those left when `WaitAllBuffersBack` returns run before the write lock
is acquired.  `none`: it never returns. -/
def DestroyDecoder (vf : VFormat) (s : Mlu200Decoder) (ecode : cncodecRet) (env : List Op) :
    Option Mlu200Decoder :=
  (DestroyDecoder.lock vf s ecode env).map DestroyDecoder.release

/-- A call on the session: an operation, or `DestroyDecoder` with its schedule. -/
inductive Call
  | op (o : Op)
  | DestroyDecoder (ecode : cncodecRet) (env : List Op)

/-- The state after a call; `none` when the call never returns. -/
def Call.exec (vf : VFormat) (s : Mlu200Decoder) : Call → Option Mlu200Decoder
  | .op o => some (o.exec vf s)
  | .DestroyDecoder ecode env => edk.DestroyDecoder vf s ecode env

/-- The state after a sequence of calls made one after the other. -/
def run (vf : VFormat) : Mlu200Decoder → List Call → Option Mlu200Decoder
  | s, [] => some s
  | s, c :: cs =>
    match c.exec vf s with
    | some s1 => run vf s1 cs
    | none => none

/-- What is set among the two EOS flags in `s` is still set in `t`. -/
def FlagsKept (s t : Mlu200Decoder) : Prop :=
  (s.send_eos_ = true → t.send_eos_ = true) ∧ (s.got_eos_ = true → t.got_eos_ = true)

/-! Sample sessions: a streaming-video session and a still-image session just after construction. -/

/-- A `vformat.h` whose default-constructed `CnFrame` is zeroed and whose planes have
`stride * height` bytes. -/
def vf0 : VFormat :=
  { finfo := { buf_id := 0, pts := 0, height := 0, width := 0, frame_size := 0, pformat := 0,
               device_id := 0, channel_id := 0, n_planes := 0, strides := [0, 0, 0],
               ptrs := [0, 0, 0] },
    GetPlaneSize := fun f pi => f.strides.getD pi 0 * f.height }

/-- A streaming-video session as the constructor leaves it, with live handle `1` and both
callbacks registered. -/
def video0 : Mlu200Decoder :=
  { attr_ := { dev_id := 0, pixel_format := 0, frame_callback := true, eos_callback := true },
    status_ := .RUNNING, minimum_buf_cnt_ := 0, handle_ := 1,
    vparams_ := { codec := 0, width := 1920, height := 1080, inputBufNum := 2,
                  outputBufNum := 6 },
    packets_count_ := 0, frames_count_ := 0, send_eos_ := false, got_eos_ := false,
    jpeg_decode_ := false, pts_key_ := 0, vpu_pts_map_ := [], out_frame_list_ := [],
    trace := [] }

/-- The still-image counterpart of `video0`. -/
def jpeg0 : Mlu200Decoder :=
  { video0 with jpeg_decode_ := true }

/-- A packet with presentation time `pts`. -/
def packet0 (pts : Nat) : CnPacket :=
  { data := 4096, length := 100, pts := pts }

/-- A new-frame package: a 4x2 two-plane frame at address `addr` carrying timestamp `pts`. -/
def out0 (addr pts : Nat) : cncodecOutput :=
  { pts := pts,
    frame := { addr := addr, channel := 0, width := 4, height := 2, planeNum := 2,
               stride := [4, 4], plane := [1000, 2000] } }

/-- Calls made after a successful `FeedEos`: a frame arrives, a sequence change and a
stream-corruption event are reported. -/
def callsAfterEos : List Call :=
  [.op (.ReceiveFrame (out0 500 0)),
   .op (.ReceiveSequence ⟨0, 640, 480, 4, 8⟩ .Success),
   .op (.ReceiveEvent .STREAM_CORRUPT)]

/-- The session `video0` after a successful `FeedEos` followed by `callsAfterEos`. -/
def stateAfterEos : Mlu200Decoder :=
  (run vf0 (FeedEos video0 .Success).2 callsAfterEos).getD video0

/-- Whether a history entry is the submission of an end-of-stream marker to the accelerator:
a feed call whose input carries the EOS flag. -/
def Effect.isEosMarker : Effect → Bool
  | .cnvideoDecFeedData _ input _ => input.flags.EOS
  | .cnjpegDecFeedData _ input _ => input.flags.EOS
  | _ => false

/-- Number of end-of-stream markers submitted to the accelerator in a history. -/
def eosMarkers (t : List Effect) : Nat :=
  t.countP Effect.isEosMarker

/-- Whether a history entry is an invocation of the frame callback. -/
def Effect.isFrameCallback : Effect → Bool
  | .frame_callback _ => true
  | _ => false

/-- Whether a history entry is a release-reference call to the accelerator. -/
def Effect.isReleaseReference : Effect → Bool
  | .cnvideoDecReleaseReference _ _ => true
  | .cnjpegDecReleaseReference _ _ => true
  | _ => false

/-- Number of frames handed to the frame callback in a history. -/
def framesDelivered (t : List Effect) : Nat :=
  t.countP Effect.isFrameCallback

/-- Number of release-reference calls made to the accelerator in a history. -/
def releaseCalls (t : List Effect) : Nat :=
  t.countP Effect.isReleaseReference

/-- Number of `ReleaseBuffer` calls that return true in a sequence of operations started in
state `s`. -/
def successfulReleases (vf : VFormat) : Mlu200Decoder → List Op → Nat
  | _, [] => 0
  | s, .ReleaseBuffer buf_id ret :: ops =>
    (if (ReleaseBuffer s buf_id ret).1 then 1 else 0) +
      successfulReleases vf (ReleaseBuffer s buf_id ret).2 ops
  | s, o :: ops => successfulReleases vf (o.exec vf s) ops

/-- The three quantities of the ledger balance: size of the list of lent buffers, number of
release-reference calls so far, number of frames handed to the frame callback so far. -/
def ledgerMeasure (s : Mlu200Decoder) : Nat × Nat × Nat :=
  (s.out_frame_list_.length, releaseCalls s.trace, framesDelivered s.trace)

/-- From `s` to `t` the ledger balance holds: the counts do not go down, and the size of the
list moved by the frames delivered minus the release-reference calls made. -/
def Balanced (s t : Mlu200Decoder) : Prop :=
  releaseCalls s.trace ≤ releaseCalls t.trace ∧
  framesDelivered s.trace ≤ framesDelivered t.trace ∧
  t.out_frame_list_.length + releaseCalls t.trace + framesDelivered s.trace =
    s.out_frame_list_.length + framesDelivered t.trace + releaseCalls s.trace

/-- One frame is delivered, then `ReleaseBuffer` is called on its token and the accelerator
fails to release its reference. -/
def opsFailedRelease : List Op :=
  [.ReceiveFrame (out0 500 0), .ReleaseBuffer 500 (.Error 1)]

/-- A streaming-video session that lends the token 500 twice and the token 600 once. -/
def lent0 : Mlu200Decoder :=
  { video0 with out_frame_list_ := [500, 600, 500] }

/-- Whether a history entry is an abort call to the accelerator. -/
def Effect.isAbort : Effect → Bool
  | .cnvideoDecAbort _ => true
  | .cnjpegDecAbort _ => true
  | _ => false

/-- Number of abort calls made to the accelerator in a history. -/
def abortCalls (t : List Effect) : Nat :=
  t.countP Effect.isAbort

/-- A streaming-video session with one frame delivered and not yet released. -/
def oneLent0 : Mlu200Decoder :=
  ReceiveFrame vf0 video0 (out0 500 0)

/-- What the other threads do while `DestroyDecoder` is blocked on `oneLent0`: the accelerator
acknowledges the end of stream, then the caller releases the frame. -/
def envDrain0 : List Op :=
  [.ReceiveEvent .EOS, .ReleaseBuffer 500 .Success]

/-- What the other threads do during a `DestroyDecoder` on `video0`: the accelerator
acknowledges the end of stream, then delivers one more frame. -/
def raceAfterEos : List Op :=
  [.ReceiveEvent .EOS, .ReceiveFrame (out0 500 0)]

/-- Whether a history entry is a feed call to the accelerator (a packet or an end-of-stream
marker). -/
def Effect.isFeedData : Effect → Bool
  | .cnvideoDecFeedData _ _ _ => true
  | .cnjpegDecFeedData _ _ _ => true
  | _ => false

/-- Number of feed calls made to the accelerator in a history. -/
def feedCalls (t : List Effect) : Nat :=
  t.countP Effect.isFeedData

/-- The event types `ReceiveEvent` treats as a fault: software reset, hardware reset, out of
memory, abort error, and every type without a `case` of its own. -/
def cncodecCbEventType.isFault : cncodecCbEventType → Bool
  | .SW_RESET => true
  | .HW_RESET => true
  | .OUT_OF_MEMORY => true
  | .ABORT_ERROR => true
  | .other _ => true
  | _ => false

/-- A session that reached `EOS` with every buffer back: `video0` after a successful `FeedEos`
and the end-of-stream event. -/
def videoAtEos : Mlu200Decoder :=
  ReceiveEvent (FeedEos video0 .Success).2 .EOS

/-- An accelerator that times out on the first attempt and accepts the second. -/
def ecodeRetry : Nat → cncodecRet :=
  fun i => if i = 0 then .Timeout else .Success

/-- The `pts` of the descriptors handed to the frame callback in a history, in order. -/
def callbackPts (t : List Effect) : List Nat :=
  t.filterMap (fun e => match e with
    | .frame_callback finfo => some finfo.pts
    | _ => none)

/-- A streaming-video session whose table already holds a record and whose next key is 3. -/
def videoKey3 : Mlu200Decoder :=
  { video0 with pts_key_ := 3, vpu_pts_map_ := [(2, 900)] }

/-- An accelerator that never answers in time. -/
def ecodeTimeout : Nat → cncodecRet :=
  fun _ => .Timeout

/-- Whether a history entry destroys or aborts the accelerator channel. -/
def Effect.isDestroyOrAbort : Effect → Bool
  | .cnvideoDecDestroy _ => true
  | .cnjpegDecDestroy _ => true
  | .cnvideoDecAbort _ => true
  | .cnjpegDecAbort _ => true
  | _ => false

/-- Number of destroy and abort calls made to the accelerator in a history. -/
def destroyCalls (t : List Effect) : Nat :=
  t.countP Effect.isDestroyOrAbort

/-- From `s` to `t` no destroy or abort call is taken back, and each one made costs the
handle: the number of such calls, plus one while the handle is live, does not grow. -/
def Retired (s t : Mlu200Decoder) : Prop :=
  destroyCalls s.trace ≤ destroyCalls t.trace ∧
  destroyCalls t.trace + (if t.handle_ = nullptr then 0 else 1) ≤
    destroyCalls s.trace + (if s.handle_ = nullptr then 0 else 1)

/-- The handle and the number of destroy and abort calls so far. -/
def handleMeasure (s : Mlu200Decoder) : Nat × Nat :=
  (s.handle_, destroyCalls s.trace)

/-- A packet is fed, then `DestroyDecoder` is called and the accelerator acknowledges the end
of stream while it waits. -/
def callsTeardown : List Call :=
  [.op (.FeedData (packet0 77) (fun _ => .Success)),
   .DestroyDecoder .Success [.ReceiveEvent .EOS]]

/-- After the teardown: `AbortDecoder`, a late sequence change, `DestroyDecoder` again. -/
def callsAfterTeardown : List Call :=
  [.op .AbortDecoder,
   .op (.ReceiveSequence ⟨0, 640, 480, 4, 8⟩ .Success),
   .DestroyDecoder .Success []]

/-- The session `video0` after `callsTeardown`. -/
def stateTornDown : Mlu200Decoder :=
  (run vf0 video0 callsTeardown).getD video0

/-- The session `stateTornDown` after `callsAfterTeardown`. -/
def stateTornDownAgain : Mlu200Decoder :=
  (run vf0 stateTornDown callsAfterTeardown).getD video0

/-- A session in `STOP` has no handle. -/
def StopMeansNull (s : Mlu200Decoder) : Prop :=
  s.status_ = .STOP → s.handle_ = nullptr

/-- Whether a history entry is an invocation of the end-of-stream callback. -/
def Effect.isEosCallback : Effect → Bool
  | .eos_callback => true
  | _ => false

/-- Number of invocations of the end-of-stream callback in a history. -/
def eosCallbacks (t : List Effect) : Nat :=
  t.countP Effect.isEosCallback

/-- A session as the constructor leaves it: the member initialisers of the class, the handle
the accelerator created, and the status `RUNNING` (specification, section 4.1). -/
def Fresh (s : Mlu200Decoder) : Prop :=
  s.handle_ ≠ nullptr ∧ s.status_ = .RUNNING ∧ s.packets_count_ = 0 ∧ s.frames_count_ = 0 ∧
  s.send_eos_ = false ∧ s.got_eos_ = false ∧ s.pts_key_ = 0 ∧ s.vpu_pts_map_ = [] ∧
  s.out_frame_list_ = [] ∧ s.trace = []

/-- The state after the packets are fed one after the other, each with the answers the
accelerator gives to its attempts. -/
def feedAll : Mlu200Decoder → List (CnPacket × (Nat → cncodecRet)) → Mlu200Decoder
  | s, [] => s
  | s, pe :: ps => feedAll (FeedData s pe.1 pe.2).2 ps

/-- The narrow keys `SetVpuTimestamp` returns for the packets fed one after the other. -/
def feedKeys : Mlu200Decoder → List (CnPacket × (Nat → cncodecRet)) → List Nat
  | _, [] => []
  | s, pe :: ps => (SetVpuTimestamp s pe.1.pts).1 :: feedKeys (FeedData s pe.1 pe.2).2 ps

/-- Whether every `FeedData` of the packets fed one after the other returns true. -/
def feedOk : Mlu200Decoder → List (CnPacket × (Nat → cncodecRet)) → Bool
  | _, [] => true
  | s, pe :: ps =>
    match (FeedData s pe.1 pe.2).1 with
    | .ok true => feedOk (FeedData s pe.1 pe.2).2 ps
    | _ => false

/-- The state after new-frame events, each carrying a timestamp key and a frame, are
delivered one after the other. -/
def deliverAll (vf : VFormat) : Mlu200Decoder → List (Nat × cncodecFrame) → Mlu200Decoder
  | s, [] => s
  | s, kf :: kfs => deliverAll vf (ReceiveFrame vf s { pts := kf.1, frame := kf.2 }) kfs

/-- The end-to-end scenario: the packets are fed, `FeedEos` is called, the accelerator delivers
one new-frame event for each key returned for the packets, in feed order, with the frames
given, then the end-of-stream event. -/
def scenario (vf : VFormat) (s : Mlu200Decoder) (ps : List (CnPacket × (Nat → cncodecRet)))
    (eosEcode : cncodecRet) (frames : List cncodecFrame) : Mlu200Decoder :=
  ReceiveEvent
    (deliverAll vf (FeedEos (feedAll s ps) eosEcode).2 ((feedKeys s ps).zip frames)) .EOS

/-- What no feed and no event of the scenario changes: handle, mode, callbacks, `send_eos_`
apart; and what the history says of the callbacks. -/
def sessionFrame (s : Mlu200Decoder) : Nat × Bool × Attr × List Nat × Nat :=
  (s.handle_, s.jpeg_decode_, s.attr_, callbackPts s.trace, eosCallbacks s.trace)

/-- An accelerator that accepts at once. -/
def ecodeSuccess : Nat → cncodecRet :=
  fun _ => .Success

/-- `N + 2` packets: `N + 1` with presentation time 0, then one with presentation time 7;
the accelerator accepts each at once. -/
def wrapPackets (N : Nat) : List (CnPacket × (Nat → cncodecRet)) :=
  (packet0 0, ecodeSuccess) :: (List.replicate N (packet0 0, ecodeSuccess) ++
    [(packet0 7, ecodeSuccess)])

/-- `N + 2` frames with the geometry of `out0`. -/
def wrapFrames (N : Nat) : List cncodecFrame :=
  (out0 500 0).frame :: List.replicate (N + 1) (out0 500 0).frame

/-- Five packets with presentation times above the 32-bit range, accepted at once but for the
third, which is accepted at the second attempt. -/
def packets5 : List (CnPacket × (Nat → cncodecRet)) :=
  [(packet0 (2 ^ 40 + 10), ecodeSuccess), (packet0 (2 ^ 40 + 20), ecodeSuccess),
   (packet0 (2 ^ 40 + 30), ecodeRetry), (packet0 (2 ^ 40 + 40), ecodeSuccess),
   (packet0 (2 ^ 40 + 50), ecodeSuccess)]

/-- Five frames at five addresses. -/
def frames5 : List cncodecFrame :=
  [(out0 501 0).frame, (out0 502 0).frame, (out0 503 0).frame, (out0 504 0).frame,
   (out0 505 0).frame]

/-! Which fields each member function leaves alone. -/

@[simp] theorem emit_send_eos (s : Mlu200Decoder) (e : Effect) :
    (s.emit e).send_eos_ = s.send_eos_ := rfl

@[simp] theorem emit_got_eos (s : Mlu200Decoder) (e : Effect) :
    (s.emit e).got_eos_ = s.got_eos_ := rfl

@[simp] theorem emit_handle (s : Mlu200Decoder) (e : Effect) :
    (s.emit e).handle_ = s.handle_ := rfl

@[simp] theorem emit_status (s : Mlu200Decoder) (e : Effect) :
    (s.emit e).status_ = s.status_ := rfl

@[simp] theorem emit_jpeg_decode (s : Mlu200Decoder) (e : Effect) :
    (s.emit e).jpeg_decode_ = s.jpeg_decode_ := rfl

@[simp] theorem emit_out_frame_list (s : Mlu200Decoder) (e : Effect) :
    (s.emit e).out_frame_list_ = s.out_frame_list_ := rfl

@[simp] theorem emit_vpu_pts_map (s : Mlu200Decoder) (e : Effect) :
    (s.emit e).vpu_pts_map_ = s.vpu_pts_map_ := rfl

@[simp] theorem emit_trace (s : Mlu200Decoder) (e : Effect) :
    (s.emit e).trace = s.trace ++ [e] := rfl

/-- Erasing a key that has no binding changes nothing. -/
theorem map_erase_of_find_none (m : List (Nat × Nat)) (key : Nat)
    (h : map_find m key = none) : map_erase m key = m := by
  induction m with
  | nil => rfl
  | cons kv m ih =>
    obtain ⟨k, v⟩ := kv
    unfold map_find at h ih
    unfold map_erase at ih ⊢
    rw [List.lookup_cons] at h
    by_cases hk : key = k
    · subst hk; simp at h
    · have hk2 : (key == k) = false := by simpa using hk
      rw [hk2] at h
      have hk3 : (k != key) = true := by simpa using fun e => hk e.symm
      rw [List.filter_cons]
      simp only [hk3, if_true]
      rw [ih h]

/-- Whatever it returns, `GetVpuTimestamp` leaves the session as it was but for the binding of
`key`, which is gone. -/
theorem GetVpuTimestamp_state (s : Mlu200Decoder) (key : Nat) (pts : Bool) :
    (GetVpuTimestamp s key pts).2 =
      { s with vpu_pts_map_ := map_erase s.vpu_pts_map_ key } := by
  unfold GetVpuTimestamp
  split
  · split <;> rfl
  · rename_i h
    rw [map_erase_of_find_none _ _ h]

/-- The session after the first part of `ReceiveFrame`. -/
theorem ReceiveFrame_timestamp_state (vf : VFormat) (s : Mlu200Decoder) (out : cncodecOutput) :
    (ReceiveFrame.timestamp vf s out).2 =
      if s.jpeg_decode_ then s
      else { s with vpu_pts_map_ := map_erase s.vpu_pts_map_ (out.pts % 2 ^ 32) } := by
  unfold ReceiveFrame.timestamp
  split
  · rfl
  · rw [← GetVpuTimestamp_state s (out.pts % 2 ^ 32) true]
    split <;> (rename_i h; rw [h])

/-- With the EOS already sent, `FeedData` returns false and changes nothing. -/
theorem FeedData_of_send_eos (s : Mlu200Decoder) (packet : CnPacket) (ecode : Nat → cncodecRet)
    (h : s.send_eos_ = true) : FeedData s packet ecode = (.ok false, s) := by
  unfold FeedData
  simp [h]

/-- With the EOS already sent, `FeedEos` returns false and changes nothing. -/
theorem FeedEos_of_send_eos (s : Mlu200Decoder) (ecode : cncodecRet)
    (h : s.send_eos_ = true) : FeedEos s ecode = (.ok false, s) := by
  unfold FeedEos
  simp [h]

/-- The retry loop of `FeedVideoData` changes only the timestamp table and the status, and adds
only `cnvideoDecFeedData` calls to the history: any quantity `f` that does not depend on those
is kept. -/
theorem FeedVideoData_loop_keeps {α : Type} (f : Mlu200Decoder → α)
    (hfeedV : ∀ s h i t, f (Mlu200Decoder.emit s (.cnvideoDecFeedData h i t)) = f s)
    (hmap : ∀ (s : Mlu200Decoder) m, f { s with vpu_pts_map_ := m } = f s)
    (hst : ∀ (s : Mlu200Decoder) st, f { s with status_ := st } = f s)
    (input : cnvideoDecInput) (ecode : Nat → cncodecRet) :
    ∀ n s, f (FeedVideoData.loop input ecode n s).2 = f s := by
  intro n
  induction n with
  | zero => intro s; rfl
  | succ n ih =>
    intro s
    unfold FeedVideoData.loop
    dsimp only
    split
    · split
      · rw [GetVpuTimestamp_state, hst, hmap, hfeedV]
      · rw [ih, hfeedV]
    · exact hfeedV _ _ _ _
    · rw [GetVpuTimestamp_state, hst, hmap, hfeedV]

/-- The retry loop of `FeedJpegData` changes only the timestamp table and the status, and adds
only `cnjpegDecFeedData` calls to the history. -/
theorem FeedJpegData_loop_keeps {α : Type} (f : Mlu200Decoder → α)
    (hfeedJ : ∀ s h i t, f (Mlu200Decoder.emit s (.cnjpegDecFeedData h i t)) = f s)
    (hmap : ∀ (s : Mlu200Decoder) m, f { s with vpu_pts_map_ := m } = f s)
    (hst : ∀ (s : Mlu200Decoder) st, f { s with status_ := st } = f s)
    (input : cnjpegDecInput) (ecode : Nat → cncodecRet) :
    ∀ n s, f (FeedJpegData.loop input ecode n s).2 = f s := by
  intro n
  induction n with
  | zero => intro s; rfl
  | succ n ih =>
    intro s
    unfold FeedJpegData.loop
    dsimp only
    split
    · split
      · rw [GetVpuTimestamp_state, hst, hmap, hfeedJ]
      · rw [ih, hfeedJ]
    · exact hfeedJ _ _ _ _
    · rw [GetVpuTimestamp_state, hst, hmap, hfeedJ]

/-- `FeedVideoData` changes only the timestamp table with its key counter, the status and the
packet counter, and adds only `cnvideoDecFeedData` calls to the history. -/
theorem FeedVideoData_keeps {α : Type} (f : Mlu200Decoder → α)
    (hfeedV : ∀ s h i t, f (Mlu200Decoder.emit s (.cnvideoDecFeedData h i t)) = f s)
    (hmap : ∀ (s : Mlu200Decoder) m, f { s with vpu_pts_map_ := m } = f s)
    (hkey : ∀ (s : Mlu200Decoder) k, f { s with pts_key_ := k } = f s)
    (hst : ∀ (s : Mlu200Decoder) st, f { s with status_ := st } = f s)
    (hcnt : ∀ (s : Mlu200Decoder) c, f { s with packets_count_ := c } = f s)
    (s : Mlu200Decoder) (packet : CnPacket) (ecode : Nat → cncodecRet) :
    f (FeedVideoData s packet ecode).2 = f s := by
  have hset : f (SetVpuTimestamp s packet.pts).2 = f s := by
    have e : (SetVpuTimestamp s packet.pts).2 =
        { ({ s with vpu_pts_map_ := map_assign s.vpu_pts_map_ s.pts_key_ packet.pts } :
            Mlu200Decoder) with pts_key_ := (s.pts_key_ + 1) % 2 ^ 32 } := rfl
    rw [e, hkey, hmap]
  unfold FeedVideoData
  dsimp only
  have hl := FeedVideoData_loop_keeps f hfeedV hmap hst
    ⟨packet.data, packet.length, (SetVpuTimestamp s packet.pts).1, ⟨false, true, true⟩⟩ ecode 3
    (SetVpuTimestamp s packet.pts).2
  split
  · rename_i h
    rw [h] at hl
    exact (hcnt _ _).trans (hl.trans hset)
  · rename_i h
    rw [h] at hl
    exact hl.trans hset

/-- `FeedData` changes only the timestamp table with its key counter, the status and the
packet counter, and adds only feed calls to the history. -/
theorem FeedData_keeps {α : Type} (f : Mlu200Decoder → α)
    (hfeedV : ∀ s h i t, f (Mlu200Decoder.emit s (.cnvideoDecFeedData h i t)) = f s)
    (hfeedJ : ∀ s h i t, f (Mlu200Decoder.emit s (.cnjpegDecFeedData h i t)) = f s)
    (hmap : ∀ (s : Mlu200Decoder) m, f { s with vpu_pts_map_ := m } = f s)
    (hkey : ∀ (s : Mlu200Decoder) k, f { s with pts_key_ := k } = f s)
    (hst : ∀ (s : Mlu200Decoder) st, f { s with status_ := st } = f s)
    (hcnt : ∀ (s : Mlu200Decoder) c, f { s with packets_count_ := c } = f s)
    (s : Mlu200Decoder) (packet : CnPacket) (ecode : Nat → cncodecRet) :
    f (FeedData s packet ecode).2 = f s := by
  unfold FeedData
  split
  · rfl
  · split
    · rfl
    · by_cases hj : s.jpeg_decode_ = true
      · simp only [hj, if_true]
        have hl := FeedJpegData_loop_keeps f hfeedJ hmap hst
          { streamBuffer := packet.data, streamLength := packet.length, pts := packet.pts,
            flags := { EOS := false, TIMESTAMP := true, END_OF_FRAME := false } } ecode 3 s
        rcases h : FeedJpegData s packet ecode with ⟨_ | _, s1⟩ <;>
          (unfold FeedJpegData at h; rw [h] at hl; exact hl)
      · simp only [hj]
        have hl := FeedVideoData_keeps f hfeedV hmap hkey hst hcnt s packet ecode
        rcases h : FeedVideoData s packet ecode with ⟨_ | _, s1⟩ <;>
          (rw [h] at hl; exact hl)

/-- `FeedEos` changes only the status and `send_eos_`, and adds only feed calls to the
history. -/
theorem FeedEos_keeps {α : Type} (f : Mlu200Decoder → α)
    (hfeedV : ∀ s h i t, f (Mlu200Decoder.emit s (.cnvideoDecFeedData h i t)) = f s)
    (hfeedJ : ∀ s h i t, f (Mlu200Decoder.emit s (.cnjpegDecFeedData h i t)) = f s)
    (hst : ∀ (s : Mlu200Decoder) st, f { s with status_ := st } = f s)
    (hsend : ∀ (s : Mlu200Decoder) b, f { s with send_eos_ := b } = f s)
    (s : Mlu200Decoder) (ecode : cncodecRet) : f (FeedEos s ecode).2 = f s := by
  unfold FeedEos
  repeat' split
  all_goals first | rfl | simp only [apply_ite f, hfeedV, hfeedJ, hst, hsend, ite_self]

/-- `ReleaseBuffer` changes only the list of lent buffers, and adds only release-reference
calls to the history. -/
theorem ReleaseBuffer_keeps {α : Type} (f : Mlu200Decoder → α)
    (hrelV : ∀ s h b, f (Mlu200Decoder.emit s (.cnvideoDecReleaseReference h b)) = f s)
    (hrelJ : ∀ s h b, f (Mlu200Decoder.emit s (.cnjpegDecReleaseReference h b)) = f s)
    (hlist : ∀ (s : Mlu200Decoder) l, f { s with out_frame_list_ := l } = f s)
    (s : Mlu200Decoder) (buf_id : Nat) (ret : cncodecRet) :
    f (ReleaseBuffer s buf_id ret).2 = f s := by
  unfold ReleaseBuffer
  repeat' split
  all_goals first | rfl | simp only [apply_ite f, hrelV, hrelJ, hlist, ite_self]

/-- `AbortDecoder` changes only the handle, the status and the EOS flags, and adds only
abort calls to the history. -/
theorem AbortDecoder_keeps {α : Type} (f : Mlu200Decoder → α)
    (habortV : ∀ s h, f (Mlu200Decoder.emit s (.cnvideoDecAbort h)) = f s)
    (habortJ : ∀ s h, f (Mlu200Decoder.emit s (.cnjpegDecAbort h)) = f s)
    (hfld : ∀ (s : Mlu200Decoder) h st b1 b2,
      f { s with handle_ := h, status_ := st, send_eos_ := b1, got_eos_ := b2 } = f s)
    (s : Mlu200Decoder) : f (AbortDecoder s) = f s := by
  unfold AbortDecoder
  split
  · dsimp only
    rw [hfld]
    split
    · exact habortJ _ _
    · exact habortV _ _
  · rfl

/-- The second part of `ReceiveFrame` changes only the list of lent buffers and the frame
counter, and adds only add-reference calls and frame callbacks to the history. -/
theorem ReceiveFrame_deliver_keeps {α : Type} (f : Mlu200Decoder → α)
    (haddV : ∀ s h b, f (Mlu200Decoder.emit s (.cnvideoDecAddReference h b)) = f s)
    (haddJ : ∀ s h b, f (Mlu200Decoder.emit s (.cnjpegDecAddReference h b)) = f s)
    (hcb : ∀ s fi, f (Mlu200Decoder.emit s (.frame_callback fi)) = f s)
    (hlist : ∀ (s : Mlu200Decoder) l, f { s with out_frame_list_ := l } = f s)
    (hcnt : ∀ (s : Mlu200Decoder) c, f { s with frames_count_ := c } = f s)
    (vf : VFormat) (s : Mlu200Decoder) (frame : cncodecFrame) (finfo0 : CnFrame) :
    f (ReceiveFrame.deliver vf s frame finfo0) = f s := by
  unfold ReceiveFrame.deliver
  repeat' split
  all_goals first | rfl | simp only [apply_ite f, haddV, haddJ, hcb, hlist, hcnt, ite_self]

/-- `ReceiveFrame` changes only the list of lent buffers, the frame counter and the timestamp
table, and adds only add-reference calls and frame callbacks to the history. -/
theorem ReceiveFrame_keeps {α : Type} (f : Mlu200Decoder → α)
    (haddV : ∀ s h b, f (Mlu200Decoder.emit s (.cnvideoDecAddReference h b)) = f s)
    (haddJ : ∀ s h b, f (Mlu200Decoder.emit s (.cnjpegDecAddReference h b)) = f s)
    (hcb : ∀ s fi, f (Mlu200Decoder.emit s (.frame_callback fi)) = f s)
    (hlist : ∀ (s : Mlu200Decoder) l, f { s with out_frame_list_ := l } = f s)
    (hcnt : ∀ (s : Mlu200Decoder) c, f { s with frames_count_ := c } = f s)
    (hmap : ∀ (s : Mlu200Decoder) m, f { s with vpu_pts_map_ := m } = f s)
    (vf : VFormat) (s : Mlu200Decoder) (out : cncodecOutput) :
    f (ReceiveFrame vf s out) = f s := by
  unfold ReceiveFrame
  dsimp only
  rw [ReceiveFrame_deliver_keeps f haddV haddJ hcb hlist hcnt, ReceiveFrame_timestamp_state]
  split
  · rfl
  · exact hmap s _

/-- `ReceiveSequence` changes only the creation parameters and the minimum buffer count, and
adds only a `cnvideoDecStart` call to the history. -/
theorem ReceiveSequence_keeps {α : Type} (f : Mlu200Decoder → α)
    (hstart : ∀ s h v, f (Mlu200Decoder.emit s (.cnvideoDecStart h v)) = f s)
    (hvp : ∀ (s : Mlu200Decoder) v, f { s with vparams_ := v } = f s)
    (hmin : ∀ (s : Mlu200Decoder) n, f { s with minimum_buf_cnt_ := n } = f s)
    (s : Mlu200Decoder) (info : cnvideoDecSequenceInfo) (ecode : cncodecRet) :
    f (ReceiveSequence s info ecode).2 = f s := by
  have e : ∀ v, f ({ s with vparams_ := v, minimum_buf_cnt_ := info.minOutputBufNum }) = f s :=
    fun v => (hmin { s with vparams_ := v } _).trans (hvp s v)
  unfold ReceiveSequence
  dsimp only
  split <;> (dsimp only; rw [hstart]; exact e _)

/-- `ReceiveEvent` changes only the status and `got_eos_`, and adds only the end-of-stream
callback to the history. -/
theorem ReceiveEvent_keeps {α : Type} (f : Mlu200Decoder → α)
    (heos : ∀ s, f (Mlu200Decoder.emit s .eos_callback) = f s)
    (hst : ∀ (s : Mlu200Decoder) st, f { s with status_ := st } = f s)
    (hgot : ∀ (s : Mlu200Decoder) b, f { s with got_eos_ := b } = f s)
    (s : Mlu200Decoder) (type : cncodecCbEventType) : f (ReceiveEvent s type) = f s := by
  unfold ReceiveEvent ReceiveEOS
  repeat' split
  all_goals first | rfl | simp only [apply_ite f, heos, hst, hgot, ite_self]

/-! No operation clears an EOS flag. -/

theorem FlagsKept_refl (s : Mlu200Decoder) : FlagsKept s s :=
  ⟨id, id⟩

theorem FlagsKept_trans {s t u : Mlu200Decoder} (h1 : FlagsKept s t) (h2 : FlagsKept t u) :
    FlagsKept s u :=
  ⟨fun h => h2.1 (h1.1 h), fun h => h2.2 (h1.2 h)⟩

theorem FlagsKept_of_eq {s t : Mlu200Decoder} (h1 : t.send_eos_ = s.send_eos_)
    (h2 : t.got_eos_ = s.got_eos_) : FlagsKept s t :=
  ⟨fun h => h1.trans h, fun h => h2.trans h⟩

theorem FeedData_flags (s : Mlu200Decoder) (packet : CnPacket) (ecode : Nat → cncodecRet) :
    FlagsKept s (FeedData s packet ecode).2 :=
  FlagsKept_of_eq
    (FeedData_keeps (fun s => s.send_eos_) (fun _ _ _ _ => rfl) (fun _ _ _ _ => rfl)
      (fun _ _ => rfl) (fun _ _ => rfl) (fun _ _ => rfl) (fun _ _ => rfl) s packet ecode)
    (FeedData_keeps (fun s => s.got_eos_) (fun _ _ _ _ => rfl) (fun _ _ _ _ => rfl)
      (fun _ _ => rfl) (fun _ _ => rfl) (fun _ _ => rfl) (fun _ _ => rfl) s packet ecode)

theorem FeedEos_flags (s : Mlu200Decoder) (ecode : cncodecRet) :
    FlagsKept s (FeedEos s ecode).2 := by
  refine ⟨fun h => ?_, fun h => ?_⟩
  · rw [FeedEos_of_send_eos s ecode h]; exact h
  · rw [FeedEos_keeps (fun s => s.got_eos_) (fun _ _ _ _ => rfl) (fun _ _ _ _ => rfl)
      (fun _ _ => rfl) (fun _ _ => rfl)]
    exact h

theorem ReleaseBuffer_flags (s : Mlu200Decoder) (buf_id : Nat) (ret : cncodecRet) :
    FlagsKept s (ReleaseBuffer s buf_id ret).2 :=
  FlagsKept_of_eq
    (ReleaseBuffer_keeps (fun s => s.send_eos_) (fun _ _ _ => rfl) (fun _ _ _ => rfl)
      (fun _ _ => rfl) s buf_id ret)
    (ReleaseBuffer_keeps (fun s => s.got_eos_) (fun _ _ _ => rfl) (fun _ _ _ => rfl)
      (fun _ _ => rfl) s buf_id ret)

theorem AbortDecoder_flags (s : Mlu200Decoder) : FlagsKept s (AbortDecoder s) := by
  unfold AbortDecoder
  split
  · exact ⟨fun _ => rfl, fun _ => rfl⟩
  · exact FlagsKept_refl s

theorem ReceiveFrame_flags (vf : VFormat) (s : Mlu200Decoder) (out : cncodecOutput) :
    FlagsKept s (ReceiveFrame vf s out) :=
  FlagsKept_of_eq
    (ReceiveFrame_keeps (fun s => s.send_eos_) (fun _ _ _ => rfl) (fun _ _ _ => rfl)
      (fun _ _ => rfl) (fun _ _ => rfl) (fun _ _ => rfl) (fun _ _ => rfl) vf s out)
    (ReceiveFrame_keeps (fun s => s.got_eos_) (fun _ _ _ => rfl) (fun _ _ _ => rfl)
      (fun _ _ => rfl) (fun _ _ => rfl) (fun _ _ => rfl) (fun _ _ => rfl) vf s out)

theorem ReceiveSequence_flags (s : Mlu200Decoder) (info : cnvideoDecSequenceInfo)
    (ecode : cncodecRet) : FlagsKept s (ReceiveSequence s info ecode).2 :=
  FlagsKept_of_eq
    (ReceiveSequence_keeps (fun s => s.send_eos_) (fun _ _ _ => rfl) (fun _ _ => rfl)
      (fun _ _ => rfl) s info ecode)
    (ReceiveSequence_keeps (fun s => s.got_eos_) (fun _ _ _ => rfl) (fun _ _ => rfl)
      (fun _ _ => rfl) s info ecode)

theorem ReceiveEvent_flags (s : Mlu200Decoder) (type : cncodecCbEventType) :
    FlagsKept s (ReceiveEvent s type) := by
  refine ⟨fun h => ?_, fun h => ?_⟩
  · rw [ReceiveEvent_keeps (fun s => s.send_eos_) (fun _ => rfl) (fun _ _ => rfl)
      (fun _ _ => rfl)]
    exact h
  · unfold ReceiveEvent ReceiveEOS
    repeat' split
    all_goals first | rfl | exact h

theorem Op_exec_flags (vf : VFormat) (s : Mlu200Decoder) (o : Op) :
    FlagsKept s (o.exec vf s) := by
  cases o with
  | FeedData packet ecode => exact FeedData_flags s packet ecode
  | FeedEos ecode => exact FeedEos_flags s ecode
  | ReleaseBuffer buf_id ret => exact ReleaseBuffer_flags s buf_id ret
  | AbortDecoder => exact AbortDecoder_flags s
  | ReceiveFrame out => exact ReceiveFrame_flags vf s out
  | ReceiveSequence info ecode => exact ReceiveSequence_flags s info ecode
  | ReceiveEvent type => exact ReceiveEvent_flags s type

theorem waitEos_flags (vf : VFormat) (env : List Op) :
    ∀ s r, waitEos vf s env = some r → FlagsKept s r.1 := by
  induction env with
  | nil =>
    intro s r h
    unfold waitEos at h
    split at h
    · cases h; exact FlagsKept_refl s
    · cases h
  | cons o env ih =>
    intro s r h
    unfold waitEos at h
    split at h
    · cases h; exact FlagsKept_refl s
    · exact FlagsKept_trans (Op_exec_flags vf s o) (ih _ _ h)

theorem WaitAllBuffersBack_flags (vf : VFormat) (env : List Op) :
    ∀ s r, WaitAllBuffersBack vf s env = some r → FlagsKept s r.1 := by
  induction env with
  | nil =>
    intro s r h
    unfold WaitAllBuffersBack at h
    split at h
    · cases h; exact FlagsKept_refl s
    · split at h
      · cases h; exact FlagsKept_refl s
      · cases h
  | cons o env ih =>
    intro s r h
    unfold WaitAllBuffersBack at h
    split at h
    · cases h; exact FlagsKept_refl s
    · split at h
      · cases h; exact FlagsKept_refl s
      · exact FlagsKept_trans (Op_exec_flags vf s o) (ih _ _ h)

theorem DestroyDecoder_sendEos_flags (s : Mlu200Decoder) (ecode : cncodecRet) :
    FlagsKept s (DestroyDecoder.sendEos s ecode).2 := by
  have h1 : FlagsKept s (if s.status_ = .ERROR ∧ s.handle_ ≠ nullptr then AbortDecoder s else s) := by
    split
    · exact AbortDecoder_flags s
    · exact FlagsKept_refl s
  unfold DestroyDecoder.sendEos
  dsimp only
  generalize (if s.status_ = .ERROR ∧ s.handle_ ≠ nullptr then AbortDecoder s else s) = s1 at h1 ⊢
  have h3 : FlagsKept s1 (if s1.handle_ = nullptr then
      { ({ s1 with status_ := .STOP } : Mlu200Decoder) with send_eos_ := true, got_eos_ := true }
      else { s1 with status_ := .STOP }) := by
    split
    · exact ⟨fun _ => rfl, fun _ => rfl⟩
    · exact FlagsKept_of_eq rfl rfl
  generalize (if s1.handle_ = nullptr then
      { ({ s1 with status_ := .STOP } : Mlu200Decoder) with send_eos_ := true, got_eos_ := true }
      else { s1 with status_ := .STOP }) = s3 at h3 ⊢
  split
  · have := FeedEos_flags s3 ecode
    split <;> (rename_i h; rw [h] at this; exact FlagsKept_trans h1 (FlagsKept_trans h3 this))
  · exact FlagsKept_trans h1 h3

theorem Op_run_flags (vf : VFormat) (ops : List Op) :
    ∀ s, FlagsKept s (Op.run vf s ops) := by
  induction ops with
  | nil => intro s; exact FlagsKept_refl s
  | cons o ops ih => intro s; exact FlagsKept_trans (Op_exec_flags vf s o) (ih _)

theorem DestroyDecoder_release_flags (s : Mlu200Decoder) :
    FlagsKept s (DestroyDecoder.release s) := by
  unfold DestroyDecoder.release
  repeat' split
  all_goals exact FlagsKept_refl s

theorem DestroyDecoder_drain_flags (vf : VFormat) (s : Mlu200Decoder) (ecode : cncodecRet)
    (env : List Op) (r : Mlu200Decoder × List Op)
    (h : DestroyDecoder.drain vf s ecode env = some r) : FlagsKept s r.1 := by
  have h0 := DestroyDecoder_sendEos_flags s ecode
  unfold DestroyDecoder.drain at h
  split at h
  · rename_i s4 he
    rw [he] at h0
    exact FlagsKept_trans h0 (WaitAllBuffersBack_flags vf env _ _ h)
  · rename_i s4 he
    rw [he] at h0
    split at h
    · split at h
      · rename_i s5 env1 hw
        exact FlagsKept_trans h0 (FlagsKept_trans (waitEos_flags vf env _ _ hw)
          (WaitAllBuffersBack_flags vf env1 _ _ h))
      · cases h
    · exact FlagsKept_trans h0 (WaitAllBuffersBack_flags vf env _ _ h)

theorem Call_exec_flags (vf : VFormat) (s t : Mlu200Decoder) (c : Call)
    (h : c.exec vf s = some t) : FlagsKept s t := by
  cases c with
  | op o =>
    simp only [Call.exec, Option.some.injEq] at h
    rw [← h]
    exact Op_exec_flags vf s o
  | DestroyDecoder ecode env =>
    simp only [Call.exec, edk.DestroyDecoder, DestroyDecoder.lock] at h
    cases hr : DestroyDecoder.drain vf s ecode env with
    | none => rw [hr] at h; cases h
    | some r =>
      rw [hr] at h
      simp only [Option.map_some', Option.some.injEq] at h
      rw [← h]
      exact FlagsKept_trans (DestroyDecoder_drain_flags vf s ecode env r hr)
        (FlagsKept_trans (Op_run_flags vf r.2 r.1) (DestroyDecoder_release_flags _))

theorem run_flags (vf : VFormat) (cs : List Call) :
    ∀ s t, run vf s cs = some t → FlagsKept s t := by
  induction cs with
  | nil =>
    intro s t h
    simp only [run, Option.some.injEq] at h
    rw [← h]
    exact FlagsKept_refl s
  | cons c cs ih =>
    intro s t h
    cases hc : c.exec vf s with
    | none => simp only [run, hc] at h; cases h
    | some s1 =>
      simp only [run, hc] at h
      exact FlagsKept_trans (Call_exec_flags vf s s1 c hc) (ih s1 t h)

/-- A `FeedEos` that returns true leaves `send_eos_` set. -/
theorem FeedEos_true_send_eos (s : Mlu200Decoder) (ecode : cncodecRet)
    (h : (FeedEos s ecode).1 = .ok true) : (FeedEos s ecode).2.send_eos_ = true := by
  unfold FeedEos at h ⊢
  repeat' split
  all_goals first | rfl | simp_all

/-! Feeding after the end of stream, and in `ERROR`. -/

/-- C1.  In every state reached, by any sequence of calls and events, from the state a
`FeedEos` that returned true left behind, `send_eos_` is still set, and `FeedData` returns
false and leaves the whole session as it was: no call of the accelerator is added to the
history and the timestamp table gets no record. -/
theorem FeedData_rejected_after_FeedEos (vf : VFormat) (s : Mlu200Decoder) (ecode0 : cncodecRet)
    (calls : List Call) (t : Mlu200Decoder) (packet : CnPacket) (ecode : Nat → cncodecRet)
    (hEos : (FeedEos s ecode0).1 = .ok true)
    (hrun : run vf (FeedEos s ecode0).2 calls = some t) :
    t.send_eos_ = true ∧ FeedData t packet ecode = (.ok false, t) := by
  have ht : t.send_eos_ = true :=
    (run_flags vf calls _ t hrun).1 (FeedEos_true_send_eos s ecode0 hEos)
  exact ⟨ht, FeedData_of_send_eos t packet ecode ht⟩

/-- C1, at a streaming-video session: EOS is fed, a frame arrives, the accelerator reports a
sequence change and a stream-corruption event, then a packet is fed. -/
theorem FeedData_rejected_after_FeedEos_witness :
    (FeedEos video0 .Success).1 = .ok true ∧
    run vf0 (FeedEos video0 .Success).2 callsAfterEos = some stateAfterEos ∧
    stateAfterEos.handle_ ≠ nullptr ∧
    stateAfterEos.send_eos_ = true ∧
    FeedData stateAfterEos (packet0 77) (fun _ => .Success) = (.ok false, stateAfterEos) :=
  ⟨rfl, rfl, by decide,
    FeedData_rejected_after_FeedEos vf0 video0 .Success callsAfterEos stateAfterEos (packet0 77)
      (fun _ => .Success) rfl rfl⟩

/-- C2.  The code at the failing input: a hardware-reset event puts a running session (live
handle, EOS not sent) in `ERROR`; the next `FeedData` is not rejected: it submits the packet to
the accelerator and returns true, in streaming-video mode and in still-image mode alike. -/
theorem FeedData_accepted_in_ERROR :
    (ReceiveEvent video0 .HW_RESET).status_ = .ERROR ∧
    (FeedData (ReceiveEvent video0 .HW_RESET) (packet0 77) (fun _ => .Success)).1 = .ok true ∧
    (FeedData (ReceiveEvent video0 .HW_RESET) (packet0 77) (fun _ => .Success)).2.trace =
      [.cnvideoDecFeedData 1 ⟨4096, 100, 0, ⟨false, true, true⟩⟩ 10000] ∧
    (ReceiveEvent jpeg0 .HW_RESET).status_ = .ERROR ∧
    (FeedData (ReceiveEvent jpeg0 .HW_RESET) (packet0 77) (fun _ => .Success)).1 = .ok true ∧
    (FeedData (ReceiveEvent jpeg0 .HW_RESET) (packet0 77) (fun _ => .Success)).2.trace =
      [.cnjpegDecFeedData 1 ⟨4096, 100, 77, ⟨false, true, false⟩⟩ 10000] :=
  ⟨rfl, rfl, rfl, rfl, rfl, rfl⟩

/-- A `FeedEos` adds at most one end-of-stream marker to the history. -/
theorem FeedEos_eosMarkers_le (s : Mlu200Decoder) (ecode : cncodecRet) :
    eosMarkers (FeedEos s ecode).2.trace ≤ eosMarkers s.trace + 1 := by
  unfold FeedEos
  repeat' split
  all_goals simp [eosMarkers, List.countP_append, eosVideoInput, eosJpegInput,
    Effect.isEosMarker]

/-- A `FeedEos` that changes the session leaves it in `ERROR` or with `send_eos_` set. -/
theorem FeedEos_state_cases (s : Mlu200Decoder) (ecode : cncodecRet) :
    (FeedEos s ecode).2 = s ∨ (FeedEos s ecode).2.status_ = .ERROR ∨
      (FeedEos s ecode).2.send_eos_ = true := by
  unfold FeedEos
  repeat' split
  all_goals simp

/-- In `ERROR`, `FeedEos` returns false and changes nothing. -/
theorem FeedEos_of_ERROR (s : Mlu200Decoder) (ecode : cncodecRet)
    (h : s.status_ = .ERROR) : FeedEos s ecode = (.ok false, s) := by
  unfold FeedEos
  simp [h]

/-- C3.  Two `FeedEos` calls in succession add at most one end-of-stream marker to the
history, whatever the accelerator answers; and when the first returned true, the second returns
false and leaves the whole session (status, both EOS flags, handle, history) as it was. -/
theorem FeedEos_twice (s : Mlu200Decoder) (ecode1 ecode2 : cncodecRet) :
    eosMarkers (FeedEos (FeedEos s ecode1).2 ecode2).2.trace ≤ eosMarkers s.trace + 1 ∧
    ((FeedEos s ecode1).1 = .ok true →
      FeedEos (FeedEos s ecode1).2 ecode2 = (.ok false, (FeedEos s ecode1).2)) := by
  constructor
  · rcases FeedEos_state_cases s ecode1 with h | h | h
    · rw [h]; exact FeedEos_eosMarkers_le s ecode2
    · rw [FeedEos_of_ERROR _ ecode2 h]; exact FeedEos_eosMarkers_le s ecode1
    · rw [FeedEos_of_send_eos _ ecode2 h]; exact FeedEos_eosMarkers_le s ecode1
  · intro h
    exact FeedEos_of_send_eos _ ecode2 (FeedEos_true_send_eos s ecode1 h)

/-- C3, at a fresh streaming-video session whose first `FeedEos` succeeds: one marker in the
history after the two calls, and the second call returns false with nothing changed. -/
theorem FeedEos_twice_witness :
    (FeedEos video0 .Success).1 = .ok true ∧
    eosMarkers (FeedEos (FeedEos video0 .Success).2 .Success).2.trace = 1 ∧
    FeedEos (FeedEos video0 .Success).2 .Success = (.ok false, (FeedEos video0 .Success).2) :=
  ⟨rfl, by decide, (FeedEos_twice video0 .Success .Success).2 rfl⟩

/-- A key without a binding does not resolve, and the session does not change. -/
theorem GetVpuTimestamp_of_find_none (s : Mlu200Decoder) (key : Nat) (pts : Bool)
    (h : map_find s.vpu_pts_map_ key = none) : GetVpuTimestamp s key pts = ((false, none), s) := by
  unfold GetVpuTimestamp
  rw [h]

/-- A bound key resolves, through a non-null pointer, to the value it is bound to. -/
theorem GetVpuTimestamp_of_find_some (s : Mlu200Decoder) (key v : Nat)
    (h : map_find s.vpu_pts_map_ key = some v) :
    (GetVpuTimestamp s key true).1 = (true, some v) := by
  unfold GetVpuTimestamp
  rw [h]
  rfl

/-- After a key is erased it has no binding. -/
theorem map_find_erase_self (m : List (Nat × Nat)) (k : Nat) :
    map_find (map_erase m k) k = none := by
  induction m with
  | nil => rfl
  | cons kv m ih =>
    unfold map_find map_erase at ih ⊢
    rw [List.filter_cons]
    split
    · rename_i hk
      rw [List.lookup_cons]
      have : (k == kv.1) = false := by
        simp only [bne_iff_ne, ne_eq] at hk
        simpa using fun e => hk e.symm
      rw [this]
      exact ih
    · exact ih

/-- C4.  For every presentation time `T` (every 64-bit value among them) and every session
state, whether or not the table already binds the next key, the key returned by
`SetVpuTimestamp T` resolves, in the state that call left, to `T` with result true; the key is
then no longer in the table, and resolving it a second time returns false. -/
theorem timestamp_round_trip (s : Mlu200Decoder) (T : Nat) :
    (GetVpuTimestamp (SetVpuTimestamp s T).2 (SetVpuTimestamp s T).1 true).1 = (true, some T) ∧
    map_find (GetVpuTimestamp (SetVpuTimestamp s T).2 (SetVpuTimestamp s T).1 true).2.vpu_pts_map_
      (SetVpuTimestamp s T).1 = none ∧
    (GetVpuTimestamp (GetVpuTimestamp (SetVpuTimestamp s T).2 (SetVpuTimestamp s T).1 true).2
      (SetVpuTimestamp s T).1 true).1 = (false, none) := by
  have h1 : map_find (SetVpuTimestamp s T).2.vpu_pts_map_ (SetVpuTimestamp s T).1 = some T := by
    simp [SetVpuTimestamp, map_find, map_assign, List.lookup_cons]
  have h3 : map_find
      (GetVpuTimestamp (SetVpuTimestamp s T).2 (SetVpuTimestamp s T).1 true).2.vpu_pts_map_
      (SetVpuTimestamp s T).1 = none := by
    rw [GetVpuTimestamp_state]
    exact map_find_erase_self _ _
  refine ⟨GetVpuTimestamp_of_find_some _ _ _ h1, h3, ?_⟩
  rw [GetVpuTimestamp_of_find_none _ _ _ h3]

/-! The ledger of lent buffers. -/

theorem Balanced_refl (s : Mlu200Decoder) : Balanced s s :=
  ⟨le_refl _, le_refl _, by omega⟩

theorem Balanced_trans {s t u : Mlu200Decoder} (h1 : Balanced s t) (h2 : Balanced t u) :
    Balanced s u := by
  unfold Balanced at *
  omega

theorem Balanced_of_measure {s t : Mlu200Decoder} (h : ledgerMeasure t = ledgerMeasure s) :
    Balanced s t := by
  simp only [ledgerMeasure, Prod.mk.injEq] at h
  unfold Balanced
  omega

/-- An entry that is neither a release-reference call nor a frame callback does not move the
ledger measure. -/
theorem ledgerMeasure_emit (s : Mlu200Decoder) (e : Effect)
    (h1 : e.isReleaseReference = false) (h2 : e.isFrameCallback = false) :
    ledgerMeasure (s.emit e) = ledgerMeasure s := by
  simp [ledgerMeasure, Mlu200Decoder.emit, releaseCalls, framesDelivered, List.countP_append,
    h1, h2]

/-- The release-reference call `ReleaseBuffer` makes for `buf_id` in state `s`. -/
theorem ReleaseBuffer_of_mem (s : Mlu200Decoder) (buf_id : Nat) (ret : cncodecRet)
    (hh : s.handle_ ≠ nullptr) (hin : buf_id ∈ s.out_frame_list_) :
    ReleaseBuffer s buf_id ret =
      (decide (ret = .Success),
        ({ s with out_frame_list_ := s.out_frame_list_.erase buf_id } : Mlu200Decoder).emit
          (if s.jpeg_decode_ then .cnjpegDecReleaseReference s.handle_ buf_id
           else .cnvideoDecReleaseReference s.handle_ buf_id)) := by
  unfold ReleaseBuffer
  rw [if_pos hh, if_pos hin]
  by_cases hj : s.jpeg_decode_ = true <;> by_cases hr : ret = .Success <;> simp [hj, hr]

/-- Without a handle, or for a token that is not in the list, `ReleaseBuffer` returns false and
changes nothing. -/
theorem ReleaseBuffer_of_not (s : Mlu200Decoder) (buf_id : Nat) (ret : cncodecRet)
    (h : s.handle_ = nullptr ∨ buf_id ∉ s.out_frame_list_) :
    ReleaseBuffer s buf_id ret = (false, s) := by
  unfold ReleaseBuffer
  rcases h with h | h
  · rw [if_neg (by simpa using h)]
  · rw [if_neg h]
    split <;> rfl

theorem ReleaseBuffer_balanced (s : Mlu200Decoder) (buf_id : Nat) (ret : cncodecRet) :
    Balanced s (ReleaseBuffer s buf_id ret).2 := by
  by_cases h : s.handle_ ≠ nullptr ∧ buf_id ∈ s.out_frame_list_
  · rw [ReleaseBuffer_of_mem s buf_id ret h.1 h.2]
    have hlen := List.length_erase_of_mem h.2
    have hpos : 0 < s.out_frame_list_.length := List.length_pos_of_mem h.2
    unfold Balanced
    by_cases hj : s.jpeg_decode_ = true <;>
      simp [hj, Mlu200Decoder.emit, releaseCalls, framesDelivered, List.countP_append,
        Effect.isReleaseReference, Effect.isFrameCallback, hlen] <;> omega
  · rw [ReleaseBuffer_of_not s buf_id ret (by tauto)]
    exact Balanced_refl s

theorem ReceiveFrame_deliver_balanced (vf : VFormat) (s : Mlu200Decoder) (frame : cncodecFrame)
    (finfo0 : CnFrame) : Balanced s (ReceiveFrame.deliver vf s frame finfo0) := by
  unfold ReceiveFrame.deliver
  repeat' split
  all_goals first
    | exact Balanced_refl s
    | (unfold Balanced
       simp [Mlu200Decoder.emit, releaseCalls, framesDelivered, List.countP_append,
         Effect.isReleaseReference, Effect.isFrameCallback]
       try omega)

theorem ReceiveFrame_balanced (vf : VFormat) (s : Mlu200Decoder) (out : cncodecOutput) :
    Balanced s (ReceiveFrame vf s out) := by
  unfold ReceiveFrame
  refine Balanced_trans ?_ (ReceiveFrame_deliver_balanced vf _ _ _)
  rw [ReceiveFrame_timestamp_state]
  split
  · exact Balanced_refl s
  · exact Balanced_of_measure rfl

theorem Op_exec_balanced (vf : VFormat) (s : Mlu200Decoder) (o : Op) :
    Balanced s (o.exec vf s) := by
  cases o with
  | FeedData packet ecode =>
    exact Balanced_of_measure (FeedData_keeps ledgerMeasure
      (fun _ _ _ _ => ledgerMeasure_emit _ _ rfl rfl) (fun _ _ _ _ => ledgerMeasure_emit _ _ rfl rfl)
      (fun _ _ => rfl) (fun _ _ => rfl) (fun _ _ => rfl) (fun _ _ => rfl) s packet ecode)
  | FeedEos ecode =>
    exact Balanced_of_measure (FeedEos_keeps ledgerMeasure
      (fun _ _ _ _ => ledgerMeasure_emit _ _ rfl rfl) (fun _ _ _ _ => ledgerMeasure_emit _ _ rfl rfl)
      (fun _ _ => rfl) (fun _ _ => rfl) s ecode)
  | ReleaseBuffer buf_id ret => exact ReleaseBuffer_balanced s buf_id ret
  | AbortDecoder =>
    exact Balanced_of_measure (AbortDecoder_keeps ledgerMeasure
      (fun _ _ => ledgerMeasure_emit _ _ rfl rfl) (fun _ _ => ledgerMeasure_emit _ _ rfl rfl)
      (fun _ _ _ _ _ => rfl) s)
  | ReceiveFrame out => exact ReceiveFrame_balanced vf s out
  | ReceiveSequence info ecode =>
    exact Balanced_of_measure (ReceiveSequence_keeps ledgerMeasure
      (fun _ _ _ => ledgerMeasure_emit _ _ rfl rfl) (fun _ _ => rfl) (fun _ _ => rfl)
      s info ecode)
  | ReceiveEvent type =>
    exact Balanced_of_measure (ReceiveEvent_keeps ledgerMeasure
      (fun _ => ledgerMeasure_emit _ _ rfl rfl) (fun _ _ => rfl) (fun _ _ => rfl) s type)

theorem Op_run_balanced (vf : VFormat) (ops : List Op) :
    ∀ s, Balanced s (Op.run vf s ops) := by
  induction ops with
  | nil => intro s; exact Balanced_refl s
  | cons o ops ih => intro s; exact Balanced_trans (Op_exec_balanced vf s o) (ih _)

/-- A `ReleaseBuffer` that returns true has made one release-reference call. -/
theorem ReleaseBuffer_true_releaseCalls (s : Mlu200Decoder) (buf_id : Nat) (ret : cncodecRet) :
    (if (ReleaseBuffer s buf_id ret).1 then 1 else 0) + releaseCalls s.trace ≤
      releaseCalls (ReleaseBuffer s buf_id ret).2.trace := by
  by_cases h : s.handle_ ≠ nullptr ∧ buf_id ∈ s.out_frame_list_
  · rw [ReleaseBuffer_of_mem s buf_id ret h.1 h.2]
    by_cases hj : s.jpeg_decode_ = true <;> by_cases hr : ret = .Success <;>
      simp [hj, hr, Mlu200Decoder.emit, releaseCalls, List.countP_append,
        Effect.isReleaseReference] <;> omega
  · rw [ReleaseBuffer_of_not s buf_id ret (by tauto)]
    simp

theorem successfulReleases_le (vf : VFormat) (ops : List Op) :
    ∀ s, successfulReleases vf s ops + releaseCalls s.trace ≤
      releaseCalls (Op.run vf s ops).trace := by
  induction ops with
  | nil => intro s; simp [successfulReleases, Op.run]
  | cons o ops ih =>
    intro s
    cases o with
    | ReleaseBuffer buf_id ret =>
      have h1 := ReleaseBuffer_true_releaseCalls s buf_id ret
      have h2 := ih (ReleaseBuffer s buf_id ret).2
      simp only [successfulReleases, Op.run, Op.exec]
      omega
    | FeedData packet ecode =>
      have h1 := (Op_exec_balanced vf s (.FeedData packet ecode)).1
      have h2 := ih ((Op.FeedData packet ecode).exec vf s)
      simp only [successfulReleases, Op.run]
      omega
    | FeedEos ecode =>
      have h1 := (Op_exec_balanced vf s (.FeedEos ecode)).1
      have h2 := ih ((Op.FeedEos ecode).exec vf s)
      simp only [successfulReleases, Op.run]
      omega
    | AbortDecoder =>
      have h1 := (Op_exec_balanced vf s .AbortDecoder).1
      have h2 := ih (Op.AbortDecoder.exec vf s)
      simp only [successfulReleases, Op.run]
      omega
    | ReceiveFrame out =>
      have h1 := (Op_exec_balanced vf s (.ReceiveFrame out)).1
      have h2 := ih ((Op.ReceiveFrame out).exec vf s)
      simp only [successfulReleases, Op.run]
      omega
    | ReceiveSequence info ecode =>
      have h1 := (Op_exec_balanced vf s (.ReceiveSequence info ecode)).1
      have h2 := ih ((Op.ReceiveSequence info ecode).exec vf s)
      simp only [successfulReleases, Op.run]
      omega
    | ReceiveEvent type =>
      have h1 := (Op_exec_balanced vf s (.ReceiveEvent type)).1
      have h2 := ih ((Op.ReceiveEvent type).exec vf s)
      simp only [successfulReleases, Op.run]
      omega

/-- C5 as stated fails: after one frame is delivered and its `ReleaseBuffer` returns false
because the accelerator fails to release the reference, the ledger is empty although one frame
was delivered and no release was successful. -/
theorem ledger_size_counterexample :
    (Op.run vf0 video0 opsFailedRelease).out_frame_list_.length = 0 ∧
    framesDelivered (Op.run vf0 video0 opsFailedRelease).trace = 1 ∧
    successfulReleases vf0 video0 opsFailedRelease = 0 ∧
    (Op.run vf0 video0 opsFailedRelease).out_frame_list_.length ≠
      framesDelivered (Op.run vf0 video0 opsFailedRelease).trace -
        successfulReleases vf0 video0 opsFailedRelease := by
  decide

/-- C5, amended.  Over every sequence of operations (new-frame deliveries and `ReleaseBuffer`
calls among them) started in any state, the size of the ledger moves by the number of frames
handed to the frame callback minus the number of `ReleaseBuffer` calls that took their token off
the ledger and reached the accelerator's release-reference operation, whatever the accelerator
answered; the calls that returned true are among those. -/
theorem ledger_size_balance (vf : VFormat) (s : Mlu200Decoder) (ops : List Op) :
    (Op.run vf s ops).out_frame_list_.length +
        (releaseCalls (Op.run vf s ops).trace - releaseCalls s.trace) =
      s.out_frame_list_.length +
        (framesDelivered (Op.run vf s ops).trace - framesDelivered s.trace) ∧
    successfulReleases vf s ops ≤ releaseCalls (Op.run vf s ops).trace - releaseCalls s.trace := by
  have h := Op_run_balanced vf ops s
  have h2 := successfulReleases_le vf ops s
  unfold Balanced at h
  omega

/-- C6.  With a live handle and the token in the ledger, `ReleaseBuffer` leaves the session as
it was but for the ledger, from which the first occurrence of the token is erased, and the
history, which gets one release-reference call for the token, made on the handle once the token
is off the ledger; this whatever the accelerator answers.  The token then occurs once less in
the ledger, every other token as often as before, and the call returns true exactly when the
accelerator reports success. -/
theorem ReleaseBuffer_present (s : Mlu200Decoder) (buf_id : Nat) (ret : cncodecRet)
    (hh : s.handle_ ≠ nullptr) (hin : buf_id ∈ s.out_frame_list_) :
    (ReleaseBuffer s buf_id ret).2 =
      ({ s with out_frame_list_ := s.out_frame_list_.erase buf_id } : Mlu200Decoder).emit
        (if s.jpeg_decode_ then .cnjpegDecReleaseReference s.handle_ buf_id
         else .cnvideoDecReleaseReference s.handle_ buf_id) ∧
    (ReleaseBuffer s buf_id ret).2.out_frame_list_.count buf_id + 1 =
      s.out_frame_list_.count buf_id ∧
    (∀ b, b ≠ buf_id →
      (ReleaseBuffer s buf_id ret).2.out_frame_list_.count b = s.out_frame_list_.count b) ∧
    ((ReleaseBuffer s buf_id ret).1 = true ↔ ret = .Success) := by
  rw [ReleaseBuffer_of_mem s buf_id ret hh hin]
  refine ⟨rfl, ?_, ?_, ?_⟩
  · have hpos : 0 < s.out_frame_list_.count buf_id := List.count_pos_iff.mpr hin
    simp only [emit_out_frame_list, List.count_erase_self]
    omega
  · intro b hb
    simp only [emit_out_frame_list]
    exact List.count_erase_of_ne hb _
  · simp

/-- C6, at a session that lends the token 500 twice, with the accelerator failing to release
the reference: one occurrence of 500 is gone, and the call returns false. -/
theorem ReleaseBuffer_present_witness :
    lent0.handle_ ≠ nullptr ∧ 500 ∈ lent0.out_frame_list_ ∧
    (ReleaseBuffer lent0 500 (.Error 1)).2.out_frame_list_ = [600, 500] ∧
    (ReleaseBuffer lent0 500 (.Error 1)).2.trace = [.cnvideoDecReleaseReference 1 500] ∧
    ((ReleaseBuffer lent0 500 (.Error 1)).1 = true ↔ cncodecRet.Error 1 = .Success) :=
  ⟨by decide, by decide, by decide, by decide,
    (ReleaseBuffer_present lent0 500 (.Error 1) (by decide) (by decide)).2.2.2⟩

/-- C7.  When the handle is null, or the token is not in the ledger, `ReleaseBuffer` returns
false and leaves the whole session as it was, the history included: the accelerator is not
asked to release anything. -/
theorem ReleaseBuffer_precondition_violated (s : Mlu200Decoder) (buf_id : Nat) (ret : cncodecRet)
    (h : s.handle_ = nullptr ∨ buf_id ∉ s.out_frame_list_) :
    ReleaseBuffer s buf_id ret = (false, s) :=
  ReleaseBuffer_of_not s buf_id ret h

/-- C7, for a token that was never lent (live handle) and for a lent token after the handle
was aborted. -/
theorem ReleaseBuffer_precondition_violated_witness :
    (lent0.handle_ ≠ nullptr ∧ 700 ∉ lent0.out_frame_list_ ∧
      ReleaseBuffer lent0 700 .Success = (false, lent0)) ∧
    ((AbortDecoder lent0).handle_ = nullptr ∧ 500 ∈ (AbortDecoder lent0).out_frame_list_ ∧
      ReleaseBuffer (AbortDecoder lent0) 500 .Success = (false, AbortDecoder lent0)) :=
  ⟨⟨by decide, by decide,
      ReleaseBuffer_precondition_violated lent0 700 .Success (Or.inr (by decide))⟩,
    ⟨by decide, by decide,
      ReleaseBuffer_precondition_violated (AbortDecoder lent0) 500 .Success (Or.inl (by decide))⟩⟩

/-! Teardown. -/

/-- The wait for the end of stream ends only with `got_eos_` set. -/
theorem waitEos_got_eos (vf : VFormat) (env : List Op) :
    ∀ s r, waitEos vf s env = some r → r.1.got_eos_ = true := by
  induction env with
  | nil =>
    intro s r h
    unfold waitEos at h
    split at h
    · rename_i hg; cases h; exact hg
    · cases h
  | cons o env ih =>
    intro s r h
    unfold waitEos at h
    split at h
    · rename_i hg; cases h; exact hg
    · exact ih _ _ h

/-- `WaitAllBuffersBack` ends only with the ledger empty or the handle null. -/
theorem WaitAllBuffersBack_exit (vf : VFormat) (env : List Op) :
    ∀ s r, WaitAllBuffersBack vf s env = some r →
      r.1.out_frame_list_ = [] ∨ r.1.handle_ = nullptr := by
  induction env with
  | nil =>
    intro s r h
    unfold WaitAllBuffersBack at h
    split at h
    · rename_i he; cases h; exact Or.inl (List.isEmpty_iff.mp he)
    · split at h
      · rename_i hn; cases h; exact Or.inr hn
      · cases h
  | cons o env ih =>
    intro s r h
    unfold WaitAllBuffersBack at h
    split at h
    · rename_i he; cases h; exact Or.inl (List.isEmpty_iff.mp he)
    · split at h
      · rename_i hn; cases h; exact Or.inr hn
      · exact ih _ _ h

/-- The write-locked end of `DestroyDecoder` adds nothing to the history when the handle is
null. -/
theorem DestroyDecoder_release_of_null (s : Mlu200Decoder) (h : s.handle_ = nullptr) :
    DestroyDecoder.release s = s := by
  unfold DestroyDecoder.release
  rw [if_neg (by simpa using h)]

/-- The write-locked end of `DestroyDecoder` leaves the handle null. -/
theorem DestroyDecoder_release_handle (s : Mlu200Decoder) :
    (DestroyDecoder.release s).handle_ = nullptr := by
  unfold DestroyDecoder.release
  split
  · rfl
  · rename_i h
    simpa using h

/-- When `WaitAllBuffersBack` returns inside `DestroyDecoder` with the handle live, the ledger
is empty in the state in which it returns; and `got_eos_` is true in that state unless the
`FeedEos` sent from inside `DestroyDecoder` threw.  This is the state of the last test of the
polling loop, not the state in which the write lock is acquired. -/
theorem DestroyDecoder_drain_state (vf : VFormat) (s : Mlu200Decoder) (ecode : cncodecRet)
    (env : List Op) (r : Mlu200Decoder × List Op)
    (hdrain : DestroyDecoder.drain vf s ecode env = some r) (hh : r.1.handle_ ≠ nullptr) :
    r.1.out_frame_list_ = [] ∧
    ((DestroyDecoder.sendEos s ecode).1 = false → r.1.got_eos_ = true) := by
  unfold DestroyDecoder.drain at hdrain
  split at hdrain
  · rename_i s4 he
    refine ⟨(WaitAllBuffersBack_exit vf env _ _ hdrain).resolve_right hh, ?_⟩
    rw [he]
    intro hc
    cases hc
  · rename_i s4 he
    split at hdrain
    · split at hdrain
      · rename_i s5 env1 hw
        exact ⟨(WaitAllBuffersBack_exit vf env1 _ _ hdrain).resolve_right hh,
          fun _ => (WaitAllBuffersBack_flags vf env1 _ _ hdrain).2 (waitEos_got_eos vf env _ _ hw)⟩
      · cases hdrain
    · rename_i hg
      refine ⟨(WaitAllBuffersBack_exit vf env _ _ hdrain).resolve_right hh, fun _ => ?_⟩
      apply (WaitAllBuffersBack_flags vf env _ _ hdrain).2
      simpa using hg

/-- C8: the code does not keep the guarantee.  Three teardowns of the running session `video0`,
none of which goes through `AbortDecoder` (no abort call in the history).
First, no other thread runs and the EOS marker sent from inside `DestroyDecoder` times out:
`FeedEos` throws, the `catch` logs, the wait for the end of stream is skipped, and the write
lock is acquired, and stop and destroy issued, with `got_eos_` false.
Second, the marker is accepted and the end-of-stream event arrives during the wait;
`WaitAllBuffersBack` finds the ledger empty and returns with a new-frame event still to come;
the frame is delivered before the write lock is acquired, and stop and destroy are issued with
the token 500 in the ledger.
Third, the marker times out and a new-frame event follows: stop and destroy are issued with
`got_eos_` false and the token 500 in the ledger.
For comparison: a session already in `ERROR` when `DestroyDecoder` is called is aborted, with
no stop or destroy call; and on `oneLent0`, where the end-of-stream event and the release of
the lent frame both arrive while `DestroyDecoder` is blocked, the write lock is acquired with
`got_eos_` true and the ledger empty. -/
theorem DestroyDecoder_stop_unguarded :
    ((DestroyDecoder.lock vf0 video0 .Timeout []).map
        (fun t => (t.handle_, t.got_eos_, t.out_frame_list_)) = some (1, false, []) ∧
      (DestroyDecoder vf0 video0 .Timeout []).map (fun t => t.trace) =
        some [.cnvideoDecFeedData 1 eosVideoInput 10000, .cnvideoDecStop 1,
          .cnvideoDecDestroy 1]) ∧
    ((DestroyDecoder.drain vf0 video0 .Success raceAfterEos).map
        (fun r => (r.1.got_eos_, r.1.out_frame_list_, r.2.length)) = some (true, [], 1) ∧
      (DestroyDecoder.lock vf0 video0 .Success raceAfterEos).map
        (fun t => (t.handle_, t.got_eos_, t.out_frame_list_)) = some (1, true, [500]) ∧
      (DestroyDecoder vf0 video0 .Success raceAfterEos).map (fun t => t.trace) =
        (DestroyDecoder.lock vf0 video0 .Success raceAfterEos).map
          (fun t => t.trace ++ [.cnvideoDecStop 1, .cnvideoDecDestroy 1]) ∧
      (DestroyDecoder vf0 video0 .Success raceAfterEos).map (fun t => abortCalls t.trace) =
        some 0) ∧
    ((DestroyDecoder.lock vf0 video0 .Timeout [.ReceiveFrame (out0 500 0)]).map
        (fun t => (t.handle_, t.got_eos_, t.out_frame_list_)) = some (1, false, [500]) ∧
      (DestroyDecoder vf0 video0 .Timeout [.ReceiveFrame (out0 500 0)]).map
          (fun t => t.trace) =
        (DestroyDecoder.lock vf0 video0 .Timeout [.ReceiveFrame (out0 500 0)]).map
          (fun t => t.trace ++ [.cnvideoDecStop 1, .cnvideoDecDestroy 1]) ∧
      (DestroyDecoder vf0 video0 .Timeout [.ReceiveFrame (out0 500 0)]).map
          (fun t => abortCalls t.trace) = some 0) ∧
    ((DestroyDecoder vf0 (ReceiveEvent video0 .HW_RESET) .Success []).map (fun t => t.trace) =
        some [.cnvideoDecAbort 1] ∧
      (DestroyDecoder.lock vf0 oneLent0 .Success envDrain0).map
        (fun t => (t.handle_, t.got_eos_, t.out_frame_list_)) = some (1, true, [])) := by
  refine ⟨⟨by decide, by decide⟩, ⟨by decide, by decide, by decide, by decide⟩,
    ⟨by decide, by decide, by decide⟩, ⟨by decide, by decide⟩⟩

/-- On a session that has a handle, `AbortDecoder` makes one abort call on it, nulls it, stores
`STOP` and sets both EOS flags. -/
theorem AbortDecoder_of_handle (s : Mlu200Decoder) (h : s.handle_ ≠ nullptr) :
    AbortDecoder s =
      { s.emit (if s.jpeg_decode_ then .cnjpegDecAbort s.handle_ else .cnvideoDecAbort s.handle_)
        with handle_ := nullptr, status_ := .STOP, send_eos_ := true, got_eos_ := true } := by
  unfold AbortDecoder
  rw [if_pos h]
  by_cases hj : s.jpeg_decode_ = true <;> simp [hj]

/-- On a session without a handle, `AbortDecoder` changes nothing. -/
theorem AbortDecoder_of_null (s : Mlu200Decoder) (h : s.handle_ = nullptr) :
    AbortDecoder s = s := by
  unfold AbortDecoder
  rw [if_neg (by simpa using h)]

/-- C9 as stated fails: a `DestroyDecoder` whose EOS marker timed out leaves a session with a
null handle, status `ERROR` and both EOS flags false; `AbortDecoder` on that session leaves the
status `ERROR` and both flags false. -/
theorem AbortDecoder_without_handle_counterexample :
    (DestroyDecoder vf0 video0 .Timeout []).map
        (fun s => (s.handle_, (AbortDecoder s).handle_, (AbortDecoder s).status_,
          (AbortDecoder s).send_eos_, (AbortDecoder s).got_eos_)) =
      some (nullptr, nullptr, .ERROR, false, false) := by
  decide

/-- C9, amended.  After `AbortDecoder` the handle is null.  When the session had a handle, the
status is then `STOP` and both `send_eos_` and `got_eos_` are true; when it had none,
`AbortDecoder` leaves the whole session as it was. -/
theorem AbortDecoder_post (s : Mlu200Decoder) :
    (AbortDecoder s).handle_ = nullptr ∧
    (if s.handle_ ≠ nullptr then
      (AbortDecoder s).status_ = .STOP ∧ (AbortDecoder s).send_eos_ = true ∧
        (AbortDecoder s).got_eos_ = true
     else AbortDecoder s = s) := by
  by_cases h : s.handle_ ≠ nullptr
  · rw [if_pos h, AbortDecoder_of_handle s h]
    exact ⟨rfl, rfl, rfl, rfl⟩
  · rw [if_neg h]
    have h0 : s.handle_ = nullptr := by simpa using h
    rw [AbortDecoder_of_null s h0]
    exact ⟨h0, rfl⟩

/-- C10.  `AbortDecoder` is a total function of the session (it returns nothing and throws
nothing).  Called without a handle it leaves the whole session as it was, the history included:
no accelerator call.  Called twice in succession it leaves the same session, history included,
as called once; and one call adds at most one abort call to the history. -/
theorem AbortDecoder_idempotent (s : Mlu200Decoder) :
    (s.handle_ = nullptr → AbortDecoder s = s) ∧
    AbortDecoder (AbortDecoder s) = AbortDecoder s ∧
    abortCalls (AbortDecoder (AbortDecoder s)).trace = abortCalls (AbortDecoder s).trace ∧
    abortCalls (AbortDecoder s).trace ≤ abortCalls s.trace + 1 := by
  have h2 : AbortDecoder (AbortDecoder s) = AbortDecoder s := by
    by_cases h : s.handle_ ≠ nullptr
    · exact AbortDecoder_of_null _ (by rw [AbortDecoder_of_handle s h])
    · have h0 : s.handle_ = nullptr := by simpa using h
      rw [AbortDecoder_of_null s h0, AbortDecoder_of_null s h0]
  refine ⟨AbortDecoder_of_null s, h2, by rw [h2], ?_⟩
  by_cases h : s.handle_ ≠ nullptr
  · rw [AbortDecoder_of_handle s h]
    by_cases hj : s.jpeg_decode_ = true <;>
      simp [hj, Mlu200Decoder.emit, abortCalls, List.countP_append, Effect.isAbort]
  · have h0 : s.handle_ = nullptr := by simpa using h
    rw [AbortDecoder_of_null s h0]
    omega

/-- C10, on a running session: the first `AbortDecoder` makes the one abort call and nulls the
handle; the second finds no handle and changes nothing. -/
theorem AbortDecoder_idempotent_witness :
    (AbortDecoder video0).handle_ = nullptr ∧
    AbortDecoder (AbortDecoder video0) = AbortDecoder video0 ∧
    (AbortDecoder (AbortDecoder video0)).trace = [.cnvideoDecAbort 1] :=
  ⟨by decide, (AbortDecoder_idempotent (AbortDecoder video0)).1 (by decide), by decide⟩

/-! Teardown of a session that reached the end of stream. -/

/-- C12.  On a session with a live handle, status `EOS`, both EOS flags set and an empty
ledger, `DestroyDecoder` never blocks: whatever the schedule of the other threads, the empty
one included, `WaitAllBuffersBack` returns without any operation of the schedule having run
(no wait for the end of stream, no turn of the drain loop), and `DestroyDecoder` returns: its
result is the write-locked end applied to the state the others leave when the write lock is
acquired, and the handle is null.  When no other thread runs before the write lock is
acquired, it adds to the history exactly the stop and destroy calls of the channel (the
destroy call alone in still-image mode), hence no EOS marker. -/
theorem DestroyDecoder_at_EOS (vf : VFormat) (s : Mlu200Decoder) (ecode : cncodecRet)
    (env : List Op) (hh : s.handle_ ≠ nullptr) (hst : s.status_ = .EOS)
    (hs : s.send_eos_ = true) (hg : s.got_eos_ = true) (hl : s.out_frame_list_ = []) :
    DestroyDecoder.drain vf s ecode env = some ({ s with status_ := .STOP }, env) ∧
    (∃ t, DestroyDecoder vf s ecode env = some t ∧ t.handle_ = nullptr ∧
      t = DestroyDecoder.release (Op.run vf { s with status_ := .STOP } env)) ∧
    (∃ t, DestroyDecoder vf s ecode [] = some t ∧ t.handle_ = nullptr ∧
      t.trace = s.trace ++ (if s.jpeg_decode_ then [.cnjpegDecDestroy s.handle_]
        else [.cnvideoDecStop s.handle_, .cnvideoDecDestroy s.handle_]) ∧
      eosMarkers t.trace = eosMarkers s.trace) := by
  have h1 : DestroyDecoder.sendEos s ecode = (false, { s with status_ := .STOP }) := by
    unfold DestroyDecoder.sendEos
    simp [hst, hh, hs, hg]
  have h2 : ∀ env, DestroyDecoder.drain vf s ecode env =
      some ({ s with status_ := .STOP }, env) := by
    intro env
    unfold DestroyDecoder.drain
    rw [h1]
    simp only [hg, Bool.not_true, Bool.false_eq_true, if_false]
    cases env <;> simp [WaitAllBuffersBack, hl]
  refine ⟨h2 env,
    ⟨DestroyDecoder.release (Op.run vf { s with status_ := .STOP } env), ?_,
      DestroyDecoder_release_handle _, rfl⟩,
    DestroyDecoder.release { s with status_ := .STOP }, ?_, ?_, ?_, ?_⟩
  · unfold DestroyDecoder DestroyDecoder.lock
    rw [h2 env]
    rfl
  · unfold DestroyDecoder DestroyDecoder.lock
    rw [h2 []]
    rfl
  · unfold DestroyDecoder.release
    simp [hh]
  · unfold DestroyDecoder.release
    by_cases hj : s.jpeg_decode_ = true <;> simp [hh, hj, Mlu200Decoder.emit]
  · unfold DestroyDecoder.release
    by_cases hj : s.jpeg_decode_ = true <;>
      simp [hh, hj, Mlu200Decoder.emit, eosMarkers, List.countP_append, Effect.isEosMarker,
        List.countP_cons]

/-- C12, on `videoAtEos`: whatever the others are about to do (here a late new-frame event),
`WaitAllBuffersBack` returns at once; with an empty schedule `DestroyDecoder` returns, the
history ends with the stop and destroy calls, the handle is null. -/
theorem DestroyDecoder_at_EOS_witness :
    videoAtEos.handle_ ≠ nullptr ∧ videoAtEos.status_ = .EOS ∧
    DestroyDecoder.drain vf0 videoAtEos .Success [.ReceiveFrame (out0 500 0)] =
      some ({ videoAtEos with status_ := .STOP }, [.ReceiveFrame (out0 500 0)]) ∧
    (DestroyDecoder vf0 videoAtEos .Success []).map (fun t => (t.handle_, t.trace)) =
      some (nullptr, videoAtEos.trace ++ [.cnvideoDecStop 1, .cnvideoDecDestroy 1]) :=
  ⟨by decide, by decide,
    (DestroyDecoder_at_EOS vf0 videoAtEos .Success [.ReceiveFrame (out0 500 0)] (by decide)
      (by decide) (by decide) (by decide) (by decide)).1,
    by decide⟩

/-! The bounded retry of the feed path. -/

/-- The retry loop of `FeedVideoData` with its three attempts spelled out. -/
theorem FeedVideoData_loop_three (input : cnvideoDecInput) (ecode : Nat → cncodecRet)
    (s : Mlu200Decoder) :
    FeedVideoData.loop input ecode 3 s =
      (let c : Effect := .cnvideoDecFeedData s.handle_ input 10000
       let fail (n : Nat) (e : Exception) : Except Exception Unit × Mlu200Decoder :=
         (.error e,
          { s with trace := s.trace ++ List.replicate n c,
                   vpu_pts_map_ := map_erase s.vpu_pts_map_ (input.pts % 2 ^ 32),
                   status_ := .ERROR })
       let pass (n : Nat) : Except Exception Unit × Mlu200Decoder :=
         (.ok (), { s with trace := s.trace ++ List.replicate n c })
       match ecode 0 with
       | .Success => pass 1
       | .Error _ => fail 1 .INTERNAL
       | .Timeout =>
         match ecode 1 with
         | .Success => pass 2
         | .Error _ => fail 2 .INTERNAL
         | .Timeout =>
           match ecode 2 with
           | .Success => pass 3
           | .Error _ => fail 3 .INTERNAL
           | .Timeout => fail 3 .TIMEOUT) := by
  have hg : ∀ (t : Mlu200Decoder) k, (GetVpuTimestamp t k false).2 =
      { t with vpu_pts_map_ := map_erase t.vpu_pts_map_ k } := fun t k =>
    GetVpuTimestamp_state t k false
  cases h0 : ecode 0 <;> cases h1 : ecode 1 <;> cases h2 : ecode 2 <;>
    simp [FeedVideoData.loop, h0, h1, h2, hg, Mlu200Decoder.emit, List.replicate]

/-- The retry loop of `FeedJpegData` with its three attempts spelled out. -/
theorem FeedJpegData_loop_three (input : cnjpegDecInput) (ecode : Nat → cncodecRet)
    (s : Mlu200Decoder) :
    FeedJpegData.loop input ecode 3 s =
      (let c : Effect := .cnjpegDecFeedData s.handle_ input 10000
       let fail (n : Nat) (e : Exception) : Except Exception Unit × Mlu200Decoder :=
         (.error e,
          { s with trace := s.trace ++ List.replicate n c,
                   vpu_pts_map_ := map_erase s.vpu_pts_map_ (input.pts % 2 ^ 32),
                   status_ := .ERROR })
       let pass (n : Nat) : Except Exception Unit × Mlu200Decoder :=
         (.ok (), { s with trace := s.trace ++ List.replicate n c })
       match ecode 0 with
       | .Success => pass 1
       | .Error _ => fail 1 .INTERNAL
       | .Timeout =>
         match ecode 1 with
         | .Success => pass 2
         | .Error _ => fail 2 .INTERNAL
         | .Timeout =>
           match ecode 2 with
           | .Success => pass 3
           | .Error _ => fail 3 .INTERNAL
           | .Timeout => fail 3 .TIMEOUT) := by
  have hg : ∀ (t : Mlu200Decoder) k, (GetVpuTimestamp t k false).2 =
      { t with vpu_pts_map_ := map_erase t.vpu_pts_map_ k } := fun t k =>
    GetVpuTimestamp_state t k false
  cases h0 : ecode 0 <;> cases h1 : ecode 1 <;> cases h2 : ecode 2 <;>
    simp [FeedJpegData.loop, h0, h1, h2, hg, Mlu200Decoder.emit, List.replicate]

theorem exists_lt_three (P : Nat → Prop) : (∃ i, i < 3 ∧ P i) ↔ P 0 ∨ P 1 ∨ P 2 := by
  constructor
  · rintro ⟨i, hi, h⟩
    have hc : i = 0 ∨ i = 1 ∨ i = 2 := by omega
    rcases hc with rfl | rfl | rfl
    · exact Or.inl h
    · exact Or.inr (Or.inl h)
    · exact Or.inr (Or.inr h)
  · rintro (h | h | h)
    · exact ⟨0, by omega, h⟩
    · exact ⟨1, by omega, h⟩
    · exact ⟨2, by omega, h⟩

theorem forall_lt_three (P : Nat → Prop) : (∀ i, i < 3 → P i) ↔ P 0 ∧ P 1 ∧ P 2 := by
  constructor
  · intro h
    exact ⟨h 0 (by omega), h 1 (by omega), h 2 (by omega)⟩
  · rintro ⟨h0, h1, h2⟩ i hi
    have hc : i = 0 ∨ i = 1 ∨ i = 2 := by omega
    rcases hc with rfl | rfl | rfl <;> assumption

theorem forall_lt_two (P : Nat → Prop) : (∀ i, i < 2 → P i) ↔ P 0 ∧ P 1 := by
  constructor
  · intro h
    exact ⟨h 0 (by omega), h 1 (by omega)⟩
  · rintro ⟨h0, h1⟩ i hi
    have hc : i = 0 ∨ i = 1 := by omega
    rcases hc with rfl | rfl <;> assumption

/-- C13.  `FeedData` on a session with a live handle and the EOS not sent, in either mode and
for every answer function of the accelerator (`ecode i` answers attempt `i`): at most 3 feed
calls are made; the call returns true exactly when some attempt among the three succeeds with
only timeouts before it, and then the status is unchanged; three timeouts in a row store
`ERROR` and throw `TIMEOUT` after 3 calls; an answer that is neither success nor timeout, with
only timeouts before it, stores `ERROR` and throws `INTERNAL` with no further call. -/
theorem FeedData_bounded_retry (s : Mlu200Decoder) (packet : CnPacket)
    (ecode : Nat → cncodecRet) (hh : s.handle_ ≠ nullptr) (hs : s.send_eos_ = false) :
    feedCalls (FeedData s packet ecode).2.trace ≤ feedCalls s.trace + 3 ∧
    ((FeedData s packet ecode).1 = .ok true ↔
      ∃ i, i < 3 ∧ (ecode i = .Success ∧ ∀ j, j < i → ecode j = .Timeout)) ∧
    ((FeedData s packet ecode).1 = .ok true →
      (FeedData s packet ecode).2.status_ = s.status_) ∧
    ((∀ i, i < 3 → ecode i = .Timeout) →
      (FeedData s packet ecode).1 = .error .TIMEOUT ∧
      (FeedData s packet ecode).2.status_ = .ERROR ∧
      feedCalls (FeedData s packet ecode).2.trace = feedCalls s.trace + 3) ∧
    (∀ i, i < 3 → ((∃ c, ecode i = .Error c) ∧ ∀ j, j < i → ecode j = .Timeout) →
      (FeedData s packet ecode).1 = .error .INTERNAL ∧
      (FeedData s packet ecode).2.status_ = .ERROR ∧
      feedCalls (FeedData s packet ecode).2.trace = feedCalls s.trace + (i + 1)) := by
  simp only [exists_lt_three, forall_lt_three, forall_lt_two]
  unfold FeedData
  rw [if_neg hh]
  simp only [hs, Bool.false_eq_true, if_false]
  by_cases hj : s.jpeg_decode_ = true
  · simp only [hj, if_true, FeedJpegData, FeedJpegData_loop_three]
    cases h0 : ecode 0 <;> cases h1 : ecode 1 <;> cases h2 : ecode 2 <;>
      simp [h0, h1, h2, feedCalls, List.countP_append, List.countP_replicate,
        Effect.isFeedData]
  · simp only [hj, FeedVideoData, FeedVideoData_loop_three]
    cases h0 : ecode 0 <;> cases h1 : ecode 1 <;> cases h2 : ecode 2 <;>
      simp [h0, h1, h2, SetVpuTimestamp, feedCalls, List.countP_append, List.countP_replicate,
        Effect.isFeedData]

/-- C13, on a fresh streaming-video session with an accelerator that times out once and then
accepts: two feed calls are made, the call returns true and the status stays `RUNNING`. -/
theorem FeedData_bounded_retry_witness :
    video0.handle_ ≠ nullptr ∧ video0.send_eos_ = false ∧
    feedCalls (FeedData video0 (packet0 77) ecodeRetry).2.trace = 2 ∧
    (FeedData video0 (packet0 77) ecodeRetry).1 = .ok true ∧
    (FeedData video0 (packet0 77) ecodeRetry).2.status_ = video0.status_ :=
  ⟨by decide, rfl, by decide, rfl,
    (FeedData_bounded_retry video0 (packet0 77) ecodeRetry (by decide) rfl).2.2.1 rfl⟩

/-! Fault events and new-frame events. -/

/-- C16.  For a fault event (software reset, hardware reset, out of memory, abort error, or a
type without a `case` of its own) `ReceiveEvent` returns the session with `ERROR` stored in the
status and every other field as it was: handle, EOS flags, ledger, timestamp table, and the
history, so that no accelerator call and no callback is made. -/
theorem ReceiveEvent_fault (s : Mlu200Decoder) (type : cncodecCbEventType)
    (h : type.isFault = true) : ReceiveEvent s type = { s with status_ := .ERROR } := by
  cases type <;> first | rfl | (simp [cncodecCbEventType.isFault] at h)

/-- C16, for a hardware reset and for an unrecognized event type on a session that lends
buffers. -/
theorem ReceiveEvent_fault_witness :
    cncodecCbEventType.HW_RESET.isFault = true ∧
    ReceiveEvent lent0 .HW_RESET = { lent0 with status_ := .ERROR } ∧
    ReceiveEvent lent0 (.other 99) = { lent0 with status_ := .ERROR } :=
  ⟨rfl, ReceiveEvent_fault lent0 .HW_RESET rfl, ReceiveEvent_fault lent0 (.other 99) rfl⟩

/-- The plane loop of `ReceiveFrame` does not touch the buffer token of the descriptor. -/
theorem ReceiveFrame_describe_buf_id (vf : VFormat) (s : Mlu200Decoder) (frame : cncodecFrame)
    (finfo0 : CnFrame) : (ReceiveFrame.describe vf s frame finfo0).buf_id = frame.addr := by
  have hfold : ∀ (l : List Nat) (f : CnFrame),
      (l.foldl (ReceiveFrame.plane vf frame) f).buf_id = f.buf_id := by
    intro l
    induction l with
    | nil => intro f; rfl
    | cons pi l ih => intro f; rw [List.foldl_cons, ih]; rfl
  unfold ReceiveFrame.describe
  rw [hfold]

/-- The second part of `ReceiveFrame` when the frame is not empty, a frame callback is
registered and the handle is live. -/
theorem ReceiveFrame_deliver_of_live (vf : VFormat) (s : Mlu200Decoder) (frame : cncodecFrame)
    (finfo0 : CnFrame)
    (hgeo : frame.width ≠ 0 ∧ frame.height ≠ 0 ∧ frame.planeNum ≠ 0)
    (hcb : s.attr_.frame_callback = true) (hh : s.handle_ ≠ nullptr) :
    ReceiveFrame.deliver vf s frame finfo0 =
      { s with
        out_frame_list_ := s.out_frame_list_ ++ [frame.addr],
        frames_count_ := (s.frames_count_ + 1) % 2 ^ 32,
        trace := s.trace ++
          [if s.jpeg_decode_ then .cnjpegDecAddReference s.handle_ frame.addr
           else .cnvideoDecAddReference s.handle_ frame.addr,
           .frame_callback (ReceiveFrame.describe vf s frame finfo0)] } := by
  unfold ReceiveFrame.deliver
  rw [if_neg (by tauto)]
  by_cases hj : s.jpeg_decode_ = true <;>
    simp [hcb, hh, hj, Mlu200Decoder.emit, ReceiveFrame_describe_buf_id]

/-- The second part of `ReceiveFrame` when the frame is empty, or no frame callback is
registered, or the handle is null: nothing changes. -/
theorem ReceiveFrame_deliver_of_not (vf : VFormat) (s : Mlu200Decoder) (frame : cncodecFrame)
    (finfo0 : CnFrame)
    (h : ¬(frame.width ≠ 0 ∧ frame.height ≠ 0 ∧ frame.planeNum ≠ 0 ∧
      s.attr_.frame_callback = true ∧ s.handle_ ≠ nullptr)) :
    ReceiveFrame.deliver vf s frame finfo0 = s := by
  unfold ReceiveFrame.deliver
  split
  · rfl
  · rename_i hg
    split
    · rename_i hc
      split
      · rename_i hh
        exact absurd ⟨fun e => hg (Or.inl e), fun e => hg (Or.inr (Or.inl e)),
          fun e => hg (Or.inr (Or.inr e)), hc, hh⟩ h
      · rfl
    · rfl

/-- The first part of `ReceiveFrame` changes nothing but the timestamp table. -/
theorem ReceiveFrame_timestamp_fields (vf : VFormat) (s : Mlu200Decoder) (out : cncodecOutput) :
    ∃ m, (ReceiveFrame.timestamp vf s out).2 = { s with vpu_pts_map_ := m } := by
  rw [ReceiveFrame_timestamp_state]
  split
  · exact ⟨s.vpu_pts_map_, rfl⟩
  · exact ⟨_, rfl⟩

/-- C19.  `ReceiveFrame` on a frame with non-zero width, height and plane count, with a frame
callback registered and the handle live: the buffer token (the address of the frame) is
appended to the ledger, the frame counter is incremented by one (as a `uint32_t`), and the
history gets one add-reference call for the frame followed by one frame callback whose
descriptor carries the token.  In every other case the ledger, the counter and the history are
as before: no callback, no add-reference call. -/
theorem ReceiveFrame_delivers_iff (vf : VFormat) (s : Mlu200Decoder) (out : cncodecOutput) :
    if out.frame.width ≠ 0 ∧ out.frame.height ≠ 0 ∧ out.frame.planeNum ≠ 0 ∧
        s.attr_.frame_callback = true ∧ s.handle_ ≠ nullptr then
      (ReceiveFrame vf s out).out_frame_list_ = s.out_frame_list_ ++ [out.frame.addr] ∧
      (ReceiveFrame vf s out).frames_count_ = (s.frames_count_ + 1) % 2 ^ 32 ∧
      ∃ finfo, finfo.buf_id = out.frame.addr ∧
        (ReceiveFrame vf s out).trace = s.trace ++
          [if s.jpeg_decode_ then .cnjpegDecAddReference s.handle_ out.frame.addr
           else .cnvideoDecAddReference s.handle_ out.frame.addr,
           .frame_callback finfo]
    else
      (ReceiveFrame vf s out).out_frame_list_ = s.out_frame_list_ ∧
      (ReceiveFrame vf s out).frames_count_ = s.frames_count_ ∧
      (ReceiveFrame vf s out).trace = s.trace := by
  obtain ⟨m, hm⟩ := ReceiveFrame_timestamp_fields vf s out
  unfold ReceiveFrame
  dsimp only
  split
  · rename_i h
    rw [ReceiveFrame_deliver_of_live vf _ _ _ ⟨h.1, h.2.1, h.2.2.1⟩
      (by rw [hm]; exact h.2.2.2.1) (by rw [hm]; exact h.2.2.2.2)]
    rw [hm]
    exact ⟨rfl, rfl, _, ReceiveFrame_describe_buf_id vf _ _ _, rfl⟩
  · rename_i h
    rw [ReceiveFrame_deliver_of_not vf _ _ _ (by rw [hm]; exact h)]
    rw [hm]
    exact ⟨rfl, rfl, rfl⟩

/-- C18.  The code at the failing input, for every default-constructed `CnFrame`: on a fresh
streaming-video session, whose timestamp table is empty, new-frame events that carry the keys 5
and 6 are both handed to the frame callback with the `pts` of the default-constructed
descriptor, which `ReceiveFrame` never assigns when the lookup misses; with the zeroed
descriptor of `vf0` that `pts` is 0, not the key 5. -/
theorem ReceiveFrame_miss_pts (vf : VFormat) :
    callbackPts (ReceiveFrame vf video0 (out0 500 5)).trace = [vf.finfo.pts] ∧
    callbackPts (ReceiveFrame vf video0 (out0 500 6)).trace = [vf.finfo.pts] ∧
    (ReceiveFrame vf0 video0 (out0 500 5)).trace =
      [.cnvideoDecAddReference 1 500,
       .frame_callback ⟨500, 0, 2, 4, 16, 0, 0, 0, 2, [4, 4, 0], [1000, 2000, 0]⟩] :=
  ⟨rfl, rfl, rfl⟩

/-- C20.  The code at the failing input: after `AbortDecoder` has nulled the handle of a
streaming-video session, a sequence-change event makes `ReceiveSequence` call
`cnvideoDecStart` on the null handle. -/
theorem ReceiveSequence_after_abort :
    (AbortDecoder video0).handle_ = nullptr ∧
    (ReceiveSequence (AbortDecoder video0) ⟨0, 640, 480, 4, 8⟩ .Success).2.trace =
      [.cnvideoDecAbort 1,
       .cnvideoDecStart nullptr
         { codec := 0, width := 640, height := 480, inputBufNum := 4, outputBufNum := 8 }] :=
  ⟨rfl, rfl⟩

/-! The timestamp record of a fed packet. -/

/-- Binding a key and erasing it again leaves what erasing it alone leaves. -/
theorem map_erase_assign (m : List (Nat × Nat)) (k v : Nat) :
    map_erase (map_assign m k v) k = map_erase m k := by
  unfold map_assign map_erase
  rw [List.filter_cons]
  simp [List.filter_filter]

/-- Binding a key that is not live, then erasing it, gives the table back. -/
theorem map_erase_assign_of_find_none (m : List (Nat × Nat)) (k v : Nat)
    (h : map_find m k = none) : map_erase (map_assign m k v) k = m := by
  rw [map_erase_assign, map_erase_of_find_none m k h]

/-- Binding a key that is not live puts one record in front of the table. -/
theorem map_assign_of_find_none (m : List (Nat × Nat)) (k v : Nat)
    (h : map_find m k = none) : map_assign m k v = (k, v) :: m := by
  unfold map_assign
  rw [map_erase_of_find_none m k h]

/-- C17.  `FeedData` in streaming-video mode (live handle, EOS not sent), when the next key
`pts_key_` is not live in the timestamp table: the history gets between one and three feed
calls, each carrying the key, not the packet's timestamp, in the `pts` of its input; when the
call throws (timeout after all retries, or another failure) the table is exactly as before the
call; when it returns true the table is the one before the call with the one record
key -> packet.pts added. -/
theorem FeedData_timestamp_record (s : Mlu200Decoder) (packet : CnPacket)
    (ecode : Nat → cncodecRet) (hh : s.handle_ ≠ nullptr) (hs : s.send_eos_ = false)
    (hj : s.jpeg_decode_ = false) (hkey : s.pts_key_ < 2 ^ 32)
    (hfree : map_find s.vpu_pts_map_ s.pts_key_ = none) :
    (∃ n, 1 ≤ n ∧ n ≤ 3 ∧ (FeedData s packet ecode).2.trace = s.trace ++ List.replicate n
      (.cnvideoDecFeedData s.handle_
        ⟨packet.data, packet.length, s.pts_key_, ⟨false, true, true⟩⟩ 10000)) ∧
    (∀ e, (FeedData s packet ecode).1 = .error e →
      (FeedData s packet ecode).2.vpu_pts_map_ = s.vpu_pts_map_) ∧
    ((FeedData s packet ecode).1 = .ok true →
      (FeedData s packet ecode).2.vpu_pts_map_ = (s.pts_key_, packet.pts) :: s.vpu_pts_map_) ∧
    ((FeedData s packet ecode).1 = .ok true ∨ ∃ e, (FeedData s packet ecode).1 = .error e) := by
  have hmod : s.pts_key_ % 2 ^ 32 = s.pts_key_ := Nat.mod_eq_of_lt hkey
  have hmod2 : s.pts_key_ % 4294967296 = s.pts_key_ := hmod
  have ha := map_assign_of_find_none s.vpu_pts_map_ s.pts_key_ packet.pts hfree
  have he : map_erase ((s.pts_key_, packet.pts) :: s.vpu_pts_map_) s.pts_key_ =
      s.vpu_pts_map_ := by
    rw [← ha]
    exact map_erase_assign_of_find_none s.vpu_pts_map_ s.pts_key_ packet.pts hfree
  unfold FeedData
  rw [if_neg hh]
  simp only [hs, hj, Bool.false_eq_true, if_false, FeedVideoData, FeedVideoData_loop_three]
  refine ⟨?_, ?_⟩
  · cases h0 : ecode 0 <;> cases h1 : ecode 1 <;> cases h2 : ecode 2 <;>
      simp only [SetVpuTimestamp] <;>
      first
        | exact ⟨1, by omega, by omega, rfl⟩
        | exact ⟨2, by omega, by omega, rfl⟩
        | exact ⟨3, by omega, by omega, rfl⟩
  · cases h0 : ecode 0 <;> cases h1 : ecode 1 <;> cases h2 : ecode 2 <;>
      simp [SetVpuTimestamp, hmod2, he, ha]

/-- C17, on a session whose table holds the record of key 2 and whose next key is 3: a feed
that times out three times leaves the table as it was; a feed that is accepted adds the record
3 -> 77, and the accelerator is handed the key 3. -/
theorem FeedData_timestamp_record_witness :
    map_find videoKey3.vpu_pts_map_ videoKey3.pts_key_ = none ∧
    (FeedData videoKey3 (packet0 77) ecodeTimeout).1 = .error .TIMEOUT ∧
    (FeedData videoKey3 (packet0 77) ecodeTimeout).2.vpu_pts_map_ = [(2, 900)] ∧
    (FeedData videoKey3 (packet0 77) ecodeRetry).1 = .ok true ∧
    (FeedData videoKey3 (packet0 77) ecodeRetry).2.vpu_pts_map_ = [(3, 77), (2, 900)] ∧
    (FeedData videoKey3 (packet0 77) ecodeRetry).2.trace =
      [.cnvideoDecFeedData 1 ⟨4096, 100, 3, ⟨false, true, true⟩⟩ 10000,
       .cnvideoDecFeedData 1 ⟨4096, 100, 3, ⟨false, true, true⟩⟩ 10000] :=
  ⟨rfl, rfl,
    (FeedData_timestamp_record videoKey3 (packet0 77) ecodeTimeout (by decide) rfl rfl
      (by decide) rfl).2.1 _ rfl,
    rfl,
    (FeedData_timestamp_record videoKey3 (packet0 77) ecodeRetry (by decide) rfl rfl
      (by decide) rfl).2.2.1 rfl,
    rfl⟩

/-! The handle is destroyed once. -/

theorem Retired_refl (s : Mlu200Decoder) : Retired s s :=
  ⟨le_refl _, le_refl _⟩

theorem Retired_trans {s t u : Mlu200Decoder} (h1 : Retired s t) (h2 : Retired t u) :
    Retired s u :=
  ⟨le_trans h1.1 h2.1, le_trans h2.2 h1.2⟩

theorem Retired_of_measure {s t : Mlu200Decoder} (h : handleMeasure t = handleMeasure s) :
    Retired s t := by
  simp only [handleMeasure, Prod.mk.injEq] at h
  unfold Retired
  rw [h.1, h.2]
  exact ⟨le_refl _, le_refl _⟩

/-- Once the handle is null it stays null. -/
theorem Retired_null {s t : Mlu200Decoder} (h : Retired s t) (hn : s.handle_ = nullptr) :
    t.handle_ = nullptr := by
  by_contra hc
  have h1 := h.1
  have h2 := h.2
  rw [if_pos hn, if_neg hc] at h2
  omega

/-- An entry that is neither a destroy nor an abort call does not move the handle measure. -/
theorem handleMeasure_emit (s : Mlu200Decoder) (e : Effect)
    (h : e.isDestroyOrAbort = false) : handleMeasure (s.emit e) = handleMeasure s := by
  simp [handleMeasure, Mlu200Decoder.emit, destroyCalls, List.countP_append, h]

theorem AbortDecoder_retired (s : Mlu200Decoder) : Retired s (AbortDecoder s) := by
  by_cases h : s.handle_ ≠ nullptr
  · rw [AbortDecoder_of_handle s h]
    unfold Retired
    by_cases hj : s.jpeg_decode_ = true <;>
      simp [hj, h, Mlu200Decoder.emit, destroyCalls, List.countP_append,
        Effect.isDestroyOrAbort]
  · rw [AbortDecoder_of_null s (by simpa using h)]
    exact Retired_refl s

theorem Op_exec_retired (vf : VFormat) (s : Mlu200Decoder) (o : Op) :
    Retired s (o.exec vf s) := by
  cases o with
  | FeedData packet ecode =>
    exact Retired_of_measure (FeedData_keeps handleMeasure
      (fun _ _ _ _ => handleMeasure_emit _ _ rfl) (fun _ _ _ _ => handleMeasure_emit _ _ rfl)
      (fun _ _ => rfl) (fun _ _ => rfl) (fun _ _ => rfl) (fun _ _ => rfl) s packet ecode)
  | FeedEos ecode =>
    exact Retired_of_measure (FeedEos_keeps handleMeasure
      (fun _ _ _ _ => handleMeasure_emit _ _ rfl) (fun _ _ _ _ => handleMeasure_emit _ _ rfl)
      (fun _ _ => rfl) (fun _ _ => rfl) s ecode)
  | ReleaseBuffer buf_id ret =>
    exact Retired_of_measure (ReleaseBuffer_keeps handleMeasure
      (fun _ _ _ => handleMeasure_emit _ _ rfl) (fun _ _ _ => handleMeasure_emit _ _ rfl)
      (fun _ _ => rfl) s buf_id ret)
  | AbortDecoder => exact AbortDecoder_retired s
  | ReceiveFrame out =>
    exact Retired_of_measure (ReceiveFrame_keeps handleMeasure
      (fun _ _ _ => handleMeasure_emit _ _ rfl) (fun _ _ _ => handleMeasure_emit _ _ rfl)
      (fun _ _ => handleMeasure_emit _ _ rfl) (fun _ _ => rfl) (fun _ _ => rfl)
      (fun _ _ => rfl) vf s out)
  | ReceiveSequence info ecode =>
    exact Retired_of_measure (ReceiveSequence_keeps handleMeasure
      (fun _ _ _ => handleMeasure_emit _ _ rfl) (fun _ _ => rfl) (fun _ _ => rfl)
      s info ecode)
  | ReceiveEvent type =>
    exact Retired_of_measure (ReceiveEvent_keeps handleMeasure
      (fun _ => handleMeasure_emit _ _ rfl) (fun _ _ => rfl) (fun _ _ => rfl) s type)

theorem waitEos_retired (vf : VFormat) (env : List Op) :
    ∀ s r, waitEos vf s env = some r → Retired s r.1 := by
  induction env with
  | nil =>
    intro s r h
    unfold waitEos at h
    split at h
    · cases h; exact Retired_refl s
    · cases h
  | cons o env ih =>
    intro s r h
    unfold waitEos at h
    split at h
    · cases h; exact Retired_refl s
    · exact Retired_trans (Op_exec_retired vf s o) (ih _ _ h)

theorem WaitAllBuffersBack_retired (vf : VFormat) (env : List Op) :
    ∀ s r, WaitAllBuffersBack vf s env = some r → Retired s r.1 := by
  induction env with
  | nil =>
    intro s r h
    unfold WaitAllBuffersBack at h
    split at h
    · cases h; exact Retired_refl s
    · split at h
      · cases h; exact Retired_refl s
      · cases h
  | cons o env ih =>
    intro s r h
    unfold WaitAllBuffersBack at h
    split at h
    · cases h; exact Retired_refl s
    · split at h
      · cases h; exact Retired_refl s
      · exact Retired_trans (Op_exec_retired vf s o) (ih _ _ h)

theorem DestroyDecoder_sendEos_retired (s : Mlu200Decoder) (ecode : cncodecRet) :
    Retired s (DestroyDecoder.sendEos s ecode).2 := by
  have h1 : Retired s (if s.status_ = .ERROR ∧ s.handle_ ≠ nullptr then AbortDecoder s else s) := by
    split
    · exact AbortDecoder_retired s
    · exact Retired_refl s
  unfold DestroyDecoder.sendEos
  dsimp only
  generalize (if s.status_ = .ERROR ∧ s.handle_ ≠ nullptr then AbortDecoder s else s) = s1 at h1 ⊢
  have h3 : Retired s1 (if s1.handle_ = nullptr then
      { ({ s1 with status_ := .STOP } : Mlu200Decoder) with send_eos_ := true, got_eos_ := true }
      else { s1 with status_ := .STOP }) := by
    split <;> exact Retired_of_measure rfl
  generalize (if s1.handle_ = nullptr then
      { ({ s1 with status_ := .STOP } : Mlu200Decoder) with send_eos_ := true, got_eos_ := true }
      else { s1 with status_ := .STOP }) = s3 at h3 ⊢
  split
  · have := Op_exec_retired vf0 s3 (.FeedEos ecode)
    simp only [Op.exec] at this
    split <;> (rename_i h; rw [h] at this; exact Retired_trans h1 (Retired_trans h3 this))
  · exact Retired_trans h1 h3

theorem Op_run_retired (vf : VFormat) (ops : List Op) :
    ∀ s, Retired s (Op.run vf s ops) := by
  induction ops with
  | nil => intro s; exact Retired_refl s
  | cons o ops ih => intro s; exact Retired_trans (Op_exec_retired vf s o) (ih _)

theorem DestroyDecoder_release_retired (s : Mlu200Decoder) :
    Retired s (DestroyDecoder.release s) := by
  by_cases h : s.handle_ = nullptr
  · rw [DestroyDecoder_release_of_null s h]
    exact Retired_refl s
  · unfold DestroyDecoder.release Retired
    by_cases hj : s.jpeg_decode_ = true <;>
      simp [hj, h, Mlu200Decoder.emit, destroyCalls, List.countP_append, List.countP_cons,
        Effect.isDestroyOrAbort]

theorem DestroyDecoder_drain_retired (vf : VFormat) (s : Mlu200Decoder) (ecode : cncodecRet)
    (env : List Op) (r : Mlu200Decoder × List Op)
    (h : DestroyDecoder.drain vf s ecode env = some r) : Retired s r.1 := by
  have h0 := DestroyDecoder_sendEos_retired s ecode
  unfold DestroyDecoder.drain at h
  split at h
  · rename_i s4 he
    rw [he] at h0
    exact Retired_trans h0 (WaitAllBuffersBack_retired vf env _ _ h)
  · rename_i s4 he
    rw [he] at h0
    split at h
    · split at h
      · rename_i s5 env1 hw
        exact Retired_trans h0 (Retired_trans (waitEos_retired vf env _ _ hw)
          (WaitAllBuffersBack_retired vf env1 _ _ h))
      · cases h
    · exact Retired_trans h0 (WaitAllBuffersBack_retired vf env _ _ h)

theorem Call_exec_retired (vf : VFormat) (s t : Mlu200Decoder) (c : Call)
    (h : c.exec vf s = some t) : Retired s t := by
  cases c with
  | op o =>
    simp only [Call.exec, Option.some.injEq] at h
    rw [← h]
    exact Op_exec_retired vf s o
  | DestroyDecoder ecode env =>
    simp only [Call.exec, edk.DestroyDecoder, DestroyDecoder.lock] at h
    cases hr : DestroyDecoder.drain vf s ecode env with
    | none => rw [hr] at h; cases h
    | some r =>
      rw [hr] at h
      simp only [Option.map_some', Option.some.injEq] at h
      rw [← h]
      exact Retired_trans (DestroyDecoder_drain_retired vf s ecode env r hr)
        (Retired_trans (Op_run_retired vf r.2 r.1) (DestroyDecoder_release_retired _))

theorem run_retired (vf : VFormat) (cs : List Call) :
    ∀ s t, run vf s cs = some t → Retired s t := by
  induction cs with
  | nil =>
    intro s t h
    simp only [run, Option.some.injEq] at h
    rw [← h]
    exact Retired_refl s
  | cons c cs ih =>
    intro s t h
    cases hc : c.exec vf s with
    | none => simp only [run, hc] at h; cases h
    | some s1 =>
      simp only [run, hc] at h
      exact Retired_trans (Call_exec_retired vf s s1 c hc) (ih s1 t h)

/-- C15.  On a session with a live handle, over every sequence of calls (feeds, releases,
events, `AbortDecoder`, `DestroyDecoder` with any schedule of the other threads) cut at any
point into `calls1` and `calls2`: at most one destroy or abort call is made in all; if one was
made during `calls1` the handle is null after `calls1`, stays null to the end, and no further
destroy or abort call is made; and a handle that is null after `calls1` is null at the end. -/
theorem handle_destroyed_once (vf : VFormat) (s t1 t2 : Mlu200Decoder)
    (calls1 calls2 : List Call) (hh : s.handle_ ≠ nullptr)
    (h1 : run vf s calls1 = some t1) (h2 : run vf t1 calls2 = some t2) :
    destroyCalls t2.trace ≤ destroyCalls s.trace + 1 ∧
    (destroyCalls s.trace < destroyCalls t1.trace →
      t1.handle_ = nullptr ∧ t2.handle_ = nullptr ∧
      destroyCalls t2.trace = destroyCalls t1.trace) ∧
    (t1.handle_ = nullptr → t2.handle_ = nullptr) := by
  have r1 := run_retired vf calls1 s t1 h1
  have r2 := run_retired vf calls2 t1 t2 h2
  have r12 := Retired_trans r1 r2
  have b1 := r1.2
  have b12 := r12.2
  rw [if_neg hh] at b1 b12
  refine ⟨?_, ?_, Retired_null r2⟩
  · by_cases hn : t2.handle_ = nullptr
    · rw [if_pos hn] at b12; omega
    · rw [if_neg hn] at b12; omega
  · intro hlt
    have hn1 : t1.handle_ = nullptr := by
      by_contra hc
      rw [if_neg hc] at b1
      omega
    have hn2 := Retired_null r2 hn1
    have b2 := r2.2
    rw [if_pos hn1, if_pos hn2] at b2
    have := r2.1
    exact ⟨hn1, hn2, by omega⟩

/-- C15, on a fresh streaming-video session: a packet is fed and `DestroyDecoder` runs to its
end, which makes the one destroy call; `AbortDecoder`, a late event and a second
`DestroyDecoder` then make none, and the handle stays null. -/
theorem handle_destroyed_once_witness :
    video0.handle_ ≠ nullptr ∧
    run vf0 video0 callsTeardown = some stateTornDown ∧
    run vf0 stateTornDown callsAfterTeardown = some stateTornDownAgain ∧
    destroyCalls stateTornDown.trace = 1 ∧
    destroyCalls stateTornDownAgain.trace ≤ destroyCalls video0.trace + 1 ∧
    stateTornDownAgain.handle_ = nullptr :=
  ⟨by decide, rfl, rfl, by decide,
    (handle_destroyed_once vf0 video0 stateTornDown stateTornDownAgain callsTeardown
      callsAfterTeardown (by decide) rfl rfl).1,
    by decide⟩

/-! What happens to the status `STOP`. -/

/-- `FeedData` leaves the status as it was or stores `ERROR`. -/
theorem FeedData_status (s : Mlu200Decoder) (packet : CnPacket) (ecode : Nat → cncodecRet) :
    (FeedData s packet ecode).2.status_ = s.status_ ∨
      (FeedData s packet ecode).2.status_ = .ERROR := by
  unfold FeedData
  split
  · exact Or.inl rfl
  · split
    · exact Or.inl rfl
    · by_cases hj : s.jpeg_decode_ = true
      · simp only [hj, if_true, FeedJpegData, FeedJpegData_loop_three]
        cases h0 : ecode 0 <;> cases h1 : ecode 1 <;> cases h2 : ecode 2 <;> simp
      · simp only [hj, FeedVideoData, FeedVideoData_loop_three]
        cases h0 : ecode 0 <;> cases h1 : ecode 1 <;> cases h2 : ecode 2 <;>
          simp [SetVpuTimestamp]

/-- `FeedEos` leaves the status as it was or stores `ERROR`. -/
theorem FeedEos_status (s : Mlu200Decoder) (ecode : cncodecRet) :
    (FeedEos s ecode).2.status_ = s.status_ ∨ (FeedEos s ecode).2.status_ = .ERROR := by
  unfold FeedEos
  repeat' split
  all_goals simp

/-- `ReceiveEvent` leaves the status as it was or stores `EOS` or `ERROR`. -/
theorem ReceiveEvent_status (s : Mlu200Decoder) (type : cncodecCbEventType) :
    (ReceiveEvent s type).status_ = s.status_ ∨ (ReceiveEvent s type).status_ = .EOS ∨
      (ReceiveEvent s type).status_ = .ERROR := by
  cases type <;> simp [ReceiveEvent, ReceiveEOS, apply_ite Mlu200Decoder.status_]

/-- After `AbortDecoder` the handle is null. -/
theorem AbortDecoder_handle (s : Mlu200Decoder) : (AbortDecoder s).handle_ = nullptr := by
  by_cases h : s.handle_ ≠ nullptr
  · rw [AbortDecoder_of_handle s h]
  · have h0 : s.handle_ = nullptr := by simpa using h
    rw [AbortDecoder_of_null s h0]
    exact h0

theorem Op_exec_StopMeansNull (vf : VFormat) (s : Mlu200Decoder) (o : Op)
    (h : StopMeansNull s) : StopMeansNull (o.exec vf s) := by
  have hnull := Retired_null (Op_exec_retired vf s o)
  have key : (o.exec vf s).status_ = s.status_ ∨ (o.exec vf s).status_ ≠ .STOP ∨
      (o.exec vf s).handle_ = nullptr := by
    cases o with
    | FeedData packet ecode =>
      rcases FeedData_status s packet ecode with h1 | h1
      · exact Or.inl h1
      · exact Or.inr (Or.inl (by simp only [Op.exec]; rw [h1]; decide))
    | FeedEos ecode =>
      rcases FeedEos_status s ecode with h1 | h1
      · exact Or.inl h1
      · exact Or.inr (Or.inl (by simp only [Op.exec]; rw [h1]; decide))
    | ReleaseBuffer buf_id ret =>
      exact Or.inl (ReleaseBuffer_keeps (fun s => s.status_) (fun _ _ _ => rfl)
        (fun _ _ _ => rfl) (fun _ _ => rfl) s buf_id ret)
    | AbortDecoder => exact Or.inr (Or.inr (AbortDecoder_handle s))
    | ReceiveFrame out =>
      exact Or.inl (ReceiveFrame_keeps (fun s => s.status_) (fun _ _ _ => rfl)
        (fun _ _ _ => rfl) (fun _ _ => rfl) (fun _ _ => rfl) (fun _ _ => rfl)
        (fun _ _ => rfl) vf s out)
    | ReceiveSequence info ecode =>
      exact Or.inl (ReceiveSequence_keeps (fun s => s.status_) (fun _ _ _ => rfl)
        (fun _ _ => rfl) (fun _ _ => rfl) s info ecode)
    | ReceiveEvent type =>
      rcases ReceiveEvent_status s type with h1 | h1 | h1
      · exact Or.inl h1
      · exact Or.inr (Or.inl (by simp only [Op.exec]; rw [h1]; decide))
      · exact Or.inr (Or.inl (by simp only [Op.exec]; rw [h1]; decide))
  intro hst
  rcases key with h1 | h1 | h1
  · exact hnull (h (h1 ▸ hst))
  · exact absurd hst h1
  · exact h1

theorem Call_exec_StopMeansNull (vf : VFormat) (s t : Mlu200Decoder) (c : Call)
    (hc : c.exec vf s = some t) (h : StopMeansNull s) : StopMeansNull t := by
  cases c with
  | op o =>
    simp only [Call.exec, Option.some.injEq] at hc
    rw [← hc]
    exact Op_exec_StopMeansNull vf s o h
  | DestroyDecoder ecode env =>
    simp only [Call.exec, edk.DestroyDecoder, DestroyDecoder.lock] at hc
    cases hr : DestroyDecoder.drain vf s ecode env with
    | none => rw [hr] at hc; cases hc
    | some r =>
      rw [hr] at hc
      simp only [Option.map_some', Option.some.injEq] at hc
      rw [← hc]
      exact fun _ => DestroyDecoder_release_handle _

theorem run_StopMeansNull (vf : VFormat) (cs : List Call) :
    ∀ s t, run vf s cs = some t → StopMeansNull s → StopMeansNull t := by
  induction cs with
  | nil =>
    intro s t h hs
    simp only [run, Option.some.injEq] at h
    rw [← h]
    exact hs
  | cons c cs ih =>
    intro s t h hs
    cases hc : c.exec vf s with
    | none => simp only [run, hc] at h; cases h
    | some s1 =>
      simp only [run, hc] at h
      exact ih s1 t h (Call_exec_StopMeansNull vf s s1 c hc hs)

/-- On a session in `STOP` without a handle, `DestroyDecoder` never blocks, and when no other
thread runs meanwhile it only sets the two EOS flags. -/
theorem DestroyDecoder_of_STOP_null (vf : VFormat) (s : Mlu200Decoder) (ecode : cncodecRet)
    (hst : s.status_ = .STOP) (hn : s.handle_ = nullptr) :
    DestroyDecoder vf s ecode [] = some { s with send_eos_ := true, got_eos_ := true } := by
  have h1 : DestroyDecoder.sendEos s ecode =
      (false, { s with send_eos_ := true, got_eos_ := true }) := by
    unfold DestroyDecoder.sendEos
    simp [hst, hn]
  have h2 : DestroyDecoder.drain vf s ecode [] =
      some ({ s with send_eos_ := true, got_eos_ := true }, []) := by
    unfold DestroyDecoder.drain
    rw [h1]
    simp only [Bool.not_true, Bool.false_eq_true, if_false]
    simp [WaitAllBuffersBack, hn]
  unfold DestroyDecoder DestroyDecoder.lock
  rw [h2]
  simp only [Option.map_some', Option.some.injEq, Op.run]
  exact DestroyDecoder_release_of_null _ hn

/-- C14: the code does not keep `STOP`.  `DestroyDecoder` on the running session `video0`
stores `STOP` first, then sends the EOS marker and waits for the end-of-stream event with the
handle still live; `ReceiveEOS` stores `EOS` without looking at the status, so the teardown
returns with the handle null and the status `EOS`.  When the marker times out instead,
`FeedEos` stores `ERROR` over the `STOP` just stored and the teardown returns with the status
`ERROR`.  The other ways through the teardown do end in `STOP`: a session that had reached the
end of stream before `DestroyDecoder`, and a session in `ERROR`, which is aborted.  After
`AbortDecoder` the status is `STOP`, and a late end-of-stream event or hardware-reset event
overwrites it with `EOS` or `ERROR`. -/
theorem STOP_overwritten :
    ((DestroyDecoder.sendEos video0 .Success).2.status_ = .STOP ∧
      (DestroyDecoder.sendEos video0 .Success).2.handle_ ≠ nullptr ∧
      (DestroyDecoder vf0 video0 .Success [.ReceiveEvent .EOS]).map
        (fun t => (t.status_, t.handle_)) = some (.EOS, nullptr)) ∧
    (DestroyDecoder vf0 video0 .Timeout []).map (fun t => (t.status_, t.handle_)) =
      some (.ERROR, nullptr) ∧
    ((DestroyDecoder vf0 videoAtEos .Success []).map (fun t => (t.status_, t.handle_)) =
        some (.STOP, nullptr) ∧
      (DestroyDecoder vf0 (ReceiveEvent video0 .HW_RESET) .Success []).map
        (fun t => (t.status_, t.handle_)) = some (.STOP, nullptr)) ∧
    ((AbortDecoder video0).status_ = .STOP ∧
      (ReceiveEvent (AbortDecoder video0) .EOS).status_ = .EOS ∧
      (ReceiveEvent (AbortDecoder video0) .HW_RESET).status_ = .ERROR) := by
  refine ⟨⟨by decide, by decide, by decide⟩, by decide, ⟨by decide, by decide⟩,
    ⟨by decide, by decide, by decide⟩⟩

/-! The end-to-end scenario. -/

/-- A feed call, an add-reference call or a release call does not move the session frame. -/
theorem sessionFrame_emit (s : Mlu200Decoder) (e : Effect)
    (h1 : e.isFrameCallback = false) (h2 : e.isEosCallback = false) :
    sessionFrame (s.emit e) = sessionFrame s := by
  cases e <;>
    simp_all [sessionFrame, Mlu200Decoder.emit, callbackPts, eosCallbacks, List.countP_append,
      List.filterMap_append, Effect.isFrameCallback, Effect.isEosCallback]

/-- `FeedData` does not move the session frame nor `send_eos_`. -/
theorem FeedData_sessionFrame (s : Mlu200Decoder) (packet : CnPacket)
    (ecode : Nat → cncodecRet) :
    sessionFrame (FeedData s packet ecode).2 = sessionFrame s ∧
    (FeedData s packet ecode).2.send_eos_ = s.send_eos_ :=
  ⟨FeedData_keeps sessionFrame (fun _ _ _ _ => sessionFrame_emit _ _ rfl rfl)
      (fun _ _ _ _ => sessionFrame_emit _ _ rfl rfl) (fun _ _ => rfl) (fun _ _ => rfl)
      (fun _ _ => rfl) (fun _ _ => rfl) s packet ecode,
    FeedData_keeps (fun s => s.send_eos_) (fun _ _ _ _ => rfl) (fun _ _ _ _ => rfl)
      (fun _ _ => rfl) (fun _ _ => rfl) (fun _ _ => rfl) (fun _ _ => rfl) s packet ecode⟩

/-- A `FeedData` that returns true in streaming-video mode has bound the key to the packet's
presentation time, advanced the key counter and left the status alone. -/
theorem FeedData_video_ok (s : Mlu200Decoder) (packet : CnPacket) (ecode : Nat → cncodecRet)
    (hj : s.jpeg_decode_ = false) (hok : (FeedData s packet ecode).1 = .ok true) :
    (FeedData s packet ecode).2.vpu_pts_map_ =
      map_assign s.vpu_pts_map_ s.pts_key_ packet.pts ∧
    (FeedData s packet ecode).2.pts_key_ = (s.pts_key_ + 1) % 2 ^ 32 ∧
    (FeedData s packet ecode).2.status_ = s.status_ := by
  unfold FeedData at hok ⊢
  by_cases hh : s.handle_ = nullptr
  · rw [if_pos hh] at hok
    simp at hok
  · rw [if_neg hh] at hok ⊢
    by_cases hs : s.send_eos_ = true
    · rw [if_pos hs] at hok
      simp at hok
    · rw [if_neg hs] at hok ⊢
      simp only [hj, Bool.false_eq_true, if_false, FeedVideoData, FeedVideoData_loop_three]
        at hok ⊢
      revert hok
      cases h0 : ecode 0 <;> cases h1 : ecode 1 <;> cases h2 : ecode 2 <;>
        simp [SetVpuTimestamp]

/-- In streaming-video mode, with a live handle and the EOS not sent, a packet the accelerator
accepts at the first attempt is fed with result true. -/
theorem FeedData_video_first (s : Mlu200Decoder) (packet : CnPacket) (ecode : Nat → cncodecRet)
    (hh : s.handle_ ≠ nullptr) (hs : s.send_eos_ = false) (hj : s.jpeg_decode_ = false)
    (h0 : ecode 0 = .Success) : (FeedData s packet ecode).1 = .ok true := by
  unfold FeedData
  rw [if_neg hh]
  simp [hs, hj, FeedVideoData, FeedVideoData_loop_three, h0]

/-- No record of a table whose keys are all below `c` has the key `c`. -/
theorem map_find_none_of_lt (m : List (Nat × Nat)) (c : Nat)
    (h : ∀ kv ∈ m, kv.1 < c) : map_find m c = none := by
  induction m with
  | nil => rfl
  | cons kv m ih =>
    unfold map_find at ih ⊢
    rw [List.lookup_cons]
    have h1 : kv.1 < c := h kv (List.mem_cons_self _ _)
    have h2 : (c == kv.1) = false := by simpa using (Nat.ne_of_gt h1)
    rw [h2]
    exact ih (fun kv' hkv => h kv' (List.mem_cons_of_mem _ hkv))

/-- Feeding `ps` successfully in streaming-video mode, from a state whose key counter stands
at `c` with every live key below `c`, when the keys do not wrap around: the keys returned are
`c, c + 1, ...`, the table gets one record per packet in front, and the session frame, the
status and `send_eos_` are as before. -/
theorem feedAll_keys (ps : List (CnPacket × (Nat → cncodecRet))) :
    ∀ (s : Mlu200Decoder) (c : Nat), s.jpeg_decode_ = false → s.pts_key_ = c % 2 ^ 32 →
      c + ps.length ≤ 2 ^ 32 → (∀ kv ∈ s.vpu_pts_map_, kv.1 < c) → feedOk s ps = true →
      feedKeys s ps = List.range' c ps.length ∧
      (feedAll s ps).vpu_pts_map_ =
        ((List.range' c ps.length).zip (ps.map (fun pe => pe.1.pts))).reverse ++
          s.vpu_pts_map_ ∧
      sessionFrame (feedAll s ps) = sessionFrame s ∧
      (feedAll s ps).status_ = s.status_ ∧ (feedAll s ps).send_eos_ = s.send_eos_ := by
  induction ps with
  | nil =>
    intro s c _ _ _ _ _
    simp [feedKeys, feedAll]
  | cons pe ps ih =>
    intro s c hj hk hc hlt hok
    simp only [List.length_cons] at hc
    have hc1 : c < 2 ^ 32 := by omega
    have hkey : s.pts_key_ = c := by rw [hk]; exact Nat.mod_eq_of_lt hc1
    have hok1 : (FeedData s pe.1 pe.2).1 = .ok true ∧
        feedOk (FeedData s pe.1 pe.2).2 ps = true := by
      unfold feedOk at hok
      split at hok
      · rename_i h; exact ⟨h, hok⟩
      · cases hok
    obtain ⟨hm, hpk, hst⟩ := FeedData_video_ok s pe.1 pe.2 hj hok1.1
    obtain ⟨hsf, hse⟩ := FeedData_sessionFrame s pe.1 pe.2
    have hj1 : (FeedData s pe.1 pe.2).2.jpeg_decode_ = false := by
      have := congrArg (fun x => x.2.1) hsf
      simp only [sessionFrame] at this
      rw [this]; exact hj
    have hfree : map_find s.vpu_pts_map_ s.pts_key_ = none := by
      rw [hkey]; exact map_find_none_of_lt _ _ hlt
    rw [map_assign_of_find_none _ _ _ hfree, hkey] at hm
    rw [hkey] at hpk
    have hlt1 : ∀ kv ∈ (FeedData s pe.1 pe.2).2.vpu_pts_map_, kv.1 < c + 1 := by
      intro kv hkv
      rw [hm] at hkv
      rcases List.mem_cons.mp hkv with h | h
      · rw [h]; exact Nat.lt_succ_self c
      · exact Nat.lt_succ_of_lt (hlt kv h)
    obtain ⟨i1, i2, i3, i4, i5⟩ := ih (FeedData s pe.1 pe.2).2 (c + 1) hj1 hpk (by omega) hlt1
      hok1.2
    refine ⟨?_, ?_, ?_, ?_, ?_⟩
    · simp only [feedKeys, List.length_cons, List.range'_succ, i1, SetVpuTimestamp, hkey]
    · simp only [feedAll, List.length_cons, List.range'_succ, List.map_cons, List.zip_cons_cons,
        List.reverse_cons, List.append_assoc, List.singleton_append, i2, hm]
    · simp only [feedAll]; rw [i3, hsf]
    · simp only [feedAll]; rw [i4, hst]
    · simp only [feedAll]; rw [i5, hse]

/-- The plane loop of `ReceiveFrame` does not touch the `pts` of the descriptor. -/
theorem ReceiveFrame_describe_pts (vf : VFormat) (s : Mlu200Decoder) (frame : cncodecFrame)
    (finfo0 : CnFrame) : (ReceiveFrame.describe vf s frame finfo0).pts = finfo0.pts := by
  have hfold : ∀ (l : List Nat) (f : CnFrame),
      (l.foldl (ReceiveFrame.plane vf frame) f).pts = f.pts := by
    intro l
    induction l with
    | nil => intro f; rfl
    | cons pi l ih => intro f; rw [List.foldl_cons, ih]; rfl
  unfold ReceiveFrame.describe
  rw [hfold]

/-- A bound key resolves through a non-null pointer, and its record is erased. -/
theorem GetVpuTimestamp_hit (s : Mlu200Decoder) (key v : Nat)
    (h : map_find s.vpu_pts_map_ key = some v) :
    GetVpuTimestamp s key true =
      ((true, some v), { s with vpu_pts_map_ := map_erase s.vpu_pts_map_ key }) := by
  unfold GetVpuTimestamp
  rw [h]
  rfl

/-- `ReceiveFrame` in streaming-video mode on a frame that is not empty, whose key is bound to
`v`, with a frame callback registered and a live handle: the record is consumed and the frame
is handed to the callback with `pts = v`. -/
theorem ReceiveFrame_video_hit (vf : VFormat) (s : Mlu200Decoder) (out : cncodecOutput)
    (v : Nat) (hj : s.jpeg_decode_ = false)
    (hfind : map_find s.vpu_pts_map_ (out.pts % 2 ^ 32) = some v)
    (hgeo : out.frame.width ≠ 0 ∧ out.frame.height ≠ 0 ∧ out.frame.planeNum ≠ 0)
    (hcb : s.attr_.frame_callback = true) (hh : s.handle_ ≠ nullptr) :
    ∃ finfo, finfo.pts = v ∧ ReceiveFrame vf s out =
      { s with
        vpu_pts_map_ := map_erase s.vpu_pts_map_ (out.pts % 2 ^ 32),
        out_frame_list_ := s.out_frame_list_ ++ [out.frame.addr],
        frames_count_ := (s.frames_count_ + 1) % 2 ^ 32,
        trace := s.trace ++ [.cnvideoDecAddReference s.handle_ out.frame.addr,
          .frame_callback finfo] } := by
  have ht : ReceiveFrame.timestamp vf s out =
      ({ vf.finfo with pts := v },
       { s with vpu_pts_map_ := map_erase s.vpu_pts_map_ (out.pts % 2 ^ 32) }) := by
    unfold ReceiveFrame.timestamp
    rw [if_neg (by simp [hj]), GetVpuTimestamp_hit s _ v hfind]
  refine ⟨ReceiveFrame.describe vf
    { s with vpu_pts_map_ := map_erase s.vpu_pts_map_ (out.pts % 2 ^ 32) } out.frame
    { vf.finfo with pts := v }, ReceiveFrame_describe_pts _ _ _ _, ?_⟩
  unfold ReceiveFrame
  rw [ht]
  dsimp only
  rw [ReceiveFrame_deliver_of_live vf
    { s with vpu_pts_map_ := map_erase s.vpu_pts_map_ (out.pts % 2 ^ 32) } out.frame _ hgeo hcb
    hh]
  simp only [hj, Bool.false_eq_true, if_false]

/-- A record appended to a table that does not have its key is found under that key. -/
theorem map_find_append_last (l : List (Nat × Nat)) (k v : Nat)
    (h : ∀ kv ∈ l, kv.1 ≠ k) : map_find (l ++ [(k, v)]) k = some v := by
  induction l with
  | nil => simp [map_find, List.lookup_cons]
  | cons kv l ih =>
    unfold map_find at ih ⊢
    rw [List.cons_append, List.lookup_cons]
    have h1 : (k == kv.1) = false := by
      simpa using fun e : k = kv.1 => h kv (List.mem_cons_self _ _) e.symm
    rw [h1]
    exact ih (fun kv' hkv => h kv' (List.mem_cons_of_mem _ hkv))

/-- Erasing the key of a record appended to a table that does not have that key gives the
table back. -/
theorem map_erase_append_last (l : List (Nat × Nat)) (k v : Nat)
    (h : ∀ kv ∈ l, kv.1 ≠ k) : map_erase (l ++ [(k, v)]) k = l := by
  unfold map_erase
  rw [List.filter_append]
  have h1 : l.filter (fun kv => kv.1 != k) = l :=
    List.filter_eq_self.mpr (fun kv hkv => by simpa using h kv hkv)
  rw [h1]
  simp

/-- The number of frames handed to the frame callback is the number of `pts` handed to it. -/
theorem framesDelivered_eq_length (t : List Effect) :
    framesDelivered t = (callbackPts t).length := by
  induction t with
  | nil => rfl
  | cons e t ih =>
    unfold framesDelivered callbackPts at ih ⊢
    cases e <;> simp [List.countP_cons, List.filterMap_cons, Effect.isFrameCallback, ih]

/-- Delivering, in streaming-video mode with a frame callback and a live handle, one frame
that is not empty for each record `kvs` of the table, in the order the records were made, with
keys that are distinct 32-bit values: the callback gets the `pts` of the records in that order,
the table ends empty, and handle, mode, callbacks, status and EOS callbacks are as before. -/
theorem deliverAll_resolves (vf : VFormat) (kvs : List (Nat × Nat)) :
    ∀ (frames : List cncodecFrame) (s : Mlu200Decoder), s.jpeg_decode_ = false →
      s.attr_.frame_callback = true → s.handle_ ≠ nullptr →
      (kvs.map Prod.fst).Nodup → (∀ kv ∈ kvs, kv.1 < 2 ^ 32) →
      s.vpu_pts_map_ = kvs.reverse → frames.length = kvs.length →
      (∀ f ∈ frames, f.width ≠ 0 ∧ f.height ≠ 0 ∧ f.planeNum ≠ 0) →
      callbackPts (deliverAll vf s ((kvs.map Prod.fst).zip frames)).trace =
        callbackPts s.trace ++ kvs.map Prod.snd ∧
      (deliverAll vf s ((kvs.map Prod.fst).zip frames)).vpu_pts_map_ = [] ∧
      (deliverAll vf s ((kvs.map Prod.fst).zip frames)).attr_ = s.attr_ ∧
      (deliverAll vf s ((kvs.map Prod.fst).zip frames)).status_ = s.status_ ∧
      eosCallbacks (deliverAll vf s ((kvs.map Prod.fst).zip frames)).trace =
        eosCallbacks s.trace := by
  induction kvs with
  | nil =>
    intro frames s _ _ _ _ _ hm _ _
    simp only [List.map_nil, List.zip_nil_left, deliverAll, List.append_nil]
    simpa using hm
  | cons kv kvs ih =>
    intro frames s hj hcb hh hnd hlt hm hlen hgeo
    cases frames with
    | nil => simp at hlen
    | cons f fs =>
      obtain ⟨k, v⟩ := kv
      simp only [List.map_cons, List.nodup_cons] at hnd
      have hne : ∀ kv' ∈ kvs.reverse, kv'.1 ≠ k := by
        intro kv' hkv' e
        exact hnd.1 (e ▸ List.mem_map_of_mem Prod.fst (List.mem_reverse.mp hkv'))
      have hk : k % 2 ^ 32 = k := Nat.mod_eq_of_lt (hlt (k, v) (List.mem_cons_self _ _))
      rw [List.reverse_cons] at hm
      have hfind : map_find s.vpu_pts_map_ (k % 2 ^ 32) = some v := by
        rw [hk, hm]; exact map_find_append_last _ k v hne
      obtain ⟨finfo, hpts, hrf⟩ := ReceiveFrame_video_hit vf s { pts := k, frame := f } v hj
        hfind (hgeo f (List.mem_cons_self _ _)) hcb hh
      dsimp only at hrf
      simp only [List.map_cons, List.zip_cons_cons, deliverAll]
      rw [hrf]
      have hm1 : map_erase s.vpu_pts_map_ (k % 2 ^ 32) = kvs.reverse := by
        rw [hk, hm]; exact map_erase_append_last _ k v hne
      obtain ⟨i1, i2, i3, i4, i5⟩ := ih fs
        { s with
          vpu_pts_map_ := map_erase s.vpu_pts_map_ (k % 2 ^ 32),
          out_frame_list_ := s.out_frame_list_ ++ [f.addr],
          frames_count_ := (s.frames_count_ + 1) % 2 ^ 32,
          trace := s.trace ++ [.cnvideoDecAddReference s.handle_ f.addr,
            .frame_callback finfo] }
        hj hcb hh hnd.2 (fun kv' hkv' => hlt kv' (List.mem_cons_of_mem _ hkv')) hm1
        (by simpa using hlen) (fun f' hf' => hgeo f' (List.mem_cons_of_mem _ hf'))
      simp only [List.zip] at i1 i2 i3 i4 i5
      refine ⟨?_, i2, i3, i4, ?_⟩
      · rw [i1]
        simp [callbackPts, List.filterMap_append, hpts]
      · rw [i5]
        simp [eosCallbacks, List.countP_append, Effect.isEosCallback]

/-- `FeedEos` does not move the session frame nor the timestamp table. -/
theorem FeedEos_sessionFrame (s : Mlu200Decoder) (ecode : cncodecRet) :
    sessionFrame (FeedEos s ecode).2 = sessionFrame s ∧
    (FeedEos s ecode).2.vpu_pts_map_ = s.vpu_pts_map_ :=
  ⟨FeedEos_keeps sessionFrame (fun _ _ _ _ => sessionFrame_emit _ _ rfl rfl)
      (fun _ _ _ _ => sessionFrame_emit _ _ rfl rfl) (fun _ _ => rfl) (fun _ _ => rfl) s ecode,
    FeedEos_keeps (fun s => s.vpu_pts_map_) (fun _ _ _ _ => rfl) (fun _ _ _ _ => rfl)
      (fun _ _ => rfl) (fun _ _ => rfl) s ecode⟩

/-- The end-of-stream event on a session with an end-of-stream callback: the status is `EOS`,
the callback is invoked once, the table and the frames handed over so far are as before. -/
theorem ReceiveEvent_EOS_registered (s : Mlu200Decoder) (h : s.attr_.eos_callback = true) :
    (ReceiveEvent s .EOS).status_ = .EOS ∧
    (ReceiveEvent s .EOS).vpu_pts_map_ = s.vpu_pts_map_ ∧
    callbackPts (ReceiveEvent s .EOS).trace = callbackPts s.trace ∧
    eosCallbacks (ReceiveEvent s .EOS).trace = eosCallbacks s.trace + 1 := by
  simp [ReceiveEvent, ReceiveEOS, h, Mlu200Decoder.emit, callbackPts, eosCallbacks,
    List.filterMap_append, List.countP_append, Effect.isEosCallback]

/-- C11, amended.  On a fresh streaming-video session with both callbacks registered, let
`n <= 2^32` packets be fed with every `FeedData` returning true, then `FeedEos` be called
(it returns true in the scenario; nothing below depends on what it returns), then the
accelerator deliver `n` frames that are not empty, carrying the keys returned for the packets
in feed order, then the end-of-stream event.  Then the frame callback was invoked `n` times,
with the presentation times of the packets in feed order; the end-of-stream callback was
invoked once; the timestamp table is empty; the status is `EOS`. -/
theorem scenario_in_order (vf : VFormat) (s : Mlu200Decoder)
    (ps : List (CnPacket × (Nat → cncodecRet))) (eosEcode : cncodecRet)
    (frames : List cncodecFrame) (hfresh : Fresh s) (hj : s.jpeg_decode_ = false)
    (hfc : s.attr_.frame_callback = true) (hec : s.attr_.eos_callback = true)
    (hn : ps.length ≤ 2 ^ 32) (hfed : feedOk s ps = true)
    (hlen : frames.length = ps.length)
    (hgeo : ∀ f ∈ frames, f.width ≠ 0 ∧ f.height ≠ 0 ∧ f.planeNum ≠ 0) :
    callbackPts (scenario vf s ps eosEcode frames).trace = ps.map (fun pe => pe.1.pts) ∧
    framesDelivered (scenario vf s ps eosEcode frames).trace = ps.length ∧
    eosCallbacks (scenario vf s ps eosEcode frames).trace = 1 ∧
    (scenario vf s ps eosEcode frames).vpu_pts_map_ = [] ∧
    (scenario vf s ps eosEcode frames).status_ = .EOS := by
  obtain ⟨hh, _, _, _, _, _, hpk, hmap, _, htr⟩ := hfresh
  obtain ⟨k1, k2, k3, _, _⟩ := feedAll_keys ps s 0 hj (by rw [hpk]; rfl) (by omega)
    (by rw [hmap]; intro kv hkv; cases hkv) hfed
  obtain ⟨e1, e2⟩ := FeedEos_sessionFrame (feedAll s ps) eosEcode
  rw [k3] at e1
  simp only [sessionFrame, Prod.mk.injEq] at e1
  obtain ⟨f1, f2, f3, f4, f5⟩ := e1
  rw [htr] at f4 f5
  have hfst : ((List.range' 0 ps.length).zip (ps.map (fun pe => pe.1.pts))).map Prod.fst =
      List.range' 0 ps.length :=
    List.map_fst_zip _ _ (by simp)
  have hsnd : ((List.range' 0 ps.length).zip (ps.map (fun pe => pe.1.pts))).map Prod.snd =
      ps.map (fun pe => pe.1.pts) :=
    List.map_snd_zip _ _ (by simp)
  obtain ⟨d1, d2, d3, _, d5⟩ := deliverAll_resolves vf
    ((List.range' 0 ps.length).zip (ps.map (fun pe => pe.1.pts))) frames
    (FeedEos (feedAll s ps) eosEcode).2 (by rw [f2]; exact hj) (by rw [f3]; exact hfc)
    (by rw [f1]; exact hh) (by rw [hfst]; exact List.nodup_range' 0 ps.length)
    (by
      intro kv hkv
      have h1 : kv.1 ∈ List.range' 0 ps.length := by
        rw [← hfst]; exact List.mem_map_of_mem Prod.fst hkv
      have h2 := (List.mem_range'_1.mp h1).2
      omega)
    (by rw [e2, k2, hmap, List.append_nil]) (by simp [hlen]) hgeo
  rw [hsnd, f4] at d1
  rw [hfst, ← k1] at d1 d2 d3 d5
  rw [f5] at d5
  obtain ⟨r1, r2, r3, r4⟩ := ReceiveEvent_EOS_registered
    (deliverAll vf (FeedEos (feedAll s ps) eosEcode).2 ((feedKeys s ps).zip frames))
    (by rw [d3, f3]; exact hec)
  unfold scenario
  refine ⟨?_, ?_, ?_, ?_, r1⟩
  · rw [r3, d1]; rfl
  · rw [framesDelivered_eq_length, r3, d1]; simp [callbackPts]
  · rw [r4, d5]; rfl
  · rw [r2, d2]

/-- C11 amended, with five packets whose presentation times do not fit 32 bits, the third
accepted at its second attempt: `FeedEos` returns true, the five frames reach the callback with
the five presentation times in feed order, the end-of-stream callback is invoked once, the
table is empty and the status is `EOS`. -/
theorem scenario_in_order_witness :
    Fresh video0 ∧ feedOk video0 packets5 = true ∧ feedKeys video0 packets5 = [0, 1, 2, 3, 4] ∧
    (FeedEos (feedAll video0 packets5) .Success).1 = .ok true ∧
    callbackPts (scenario vf0 video0 packets5 .Success frames5).trace =
      [2 ^ 40 + 10, 2 ^ 40 + 20, 2 ^ 40 + 30, 2 ^ 40 + 40, 2 ^ 40 + 50] ∧
    framesDelivered (scenario vf0 video0 packets5 .Success frames5).trace = 5 ∧
    eosCallbacks (scenario vf0 video0 packets5 .Success frames5).trace = 1 ∧
    (scenario vf0 video0 packets5 .Success frames5).vpu_pts_map_ = [] ∧
    (scenario vf0 video0 packets5 .Success frames5).status_ = .EOS :=
  ⟨by unfold Fresh; decide, rfl, rfl, rfl,
    scenario_in_order vf0 video0 packets5 .Success frames5 (by unfold Fresh; decide) rfl rfl rfl
      (by decide) rfl rfl (by decide)⟩

/-- Feeding, in streaming-video mode with a live handle and the EOS not sent, packets that the
accelerator accepts at the first attempt: every `FeedData` returns true, the key counter
advances by the number of packets modulo `2^32`, and the session frame, the status and
`send_eos_` are as before. -/
theorem feedAll_first_attempt (ps : List (CnPacket × (Nat → cncodecRet))) :
    ∀ s : Mlu200Decoder, s.handle_ ≠ nullptr → s.send_eos_ = false → s.jpeg_decode_ = false →
      s.pts_key_ < 2 ^ 32 → (∀ pe ∈ ps, pe.2 0 = .Success) →
      feedOk s ps = true ∧
      (feedAll s ps).pts_key_ = (s.pts_key_ + ps.length) % 2 ^ 32 ∧
      sessionFrame (feedAll s ps) = sessionFrame s ∧
      (feedAll s ps).status_ = s.status_ ∧ (feedAll s ps).send_eos_ = s.send_eos_ := by
  induction ps with
  | nil =>
    intro s _ _ _ hk _
    refine ⟨rfl, ?_, rfl, rfl, rfl⟩
    simp only [feedAll, List.length_nil, Nat.add_zero]
    exact (Nat.mod_eq_of_lt hk).symm
  | cons pe ps ih =>
    intro s hh hs hj hk hall
    have hok := FeedData_video_first s pe.1 pe.2 hh hs hj (hall pe (List.mem_cons_self _ _))
    obtain ⟨_, hpk, hst⟩ := FeedData_video_ok s pe.1 pe.2 hj hok
    obtain ⟨hsf, hse⟩ := FeedData_sessionFrame s pe.1 pe.2
    have hsf' := hsf
    simp only [sessionFrame, Prod.mk.injEq] at hsf'
    obtain ⟨i1, i2, i3, i4, i5⟩ := ih (FeedData s pe.1 pe.2).2 (by rw [hsf'.1]; exact hh)
      (by rw [hse]; exact hs) (by rw [hsf'.2.1]; exact hj)
      (by rw [hpk]; exact Nat.mod_lt _ (by norm_num))
      (fun pe' h => hall pe' (List.mem_cons_of_mem _ h))
    refine ⟨?_, ?_, ?_, ?_, ?_⟩
    · unfold feedOk
      rw [hok]
      exact i1
    · simp only [feedAll, List.length_cons]
      rw [i2, hpk]
      omega
    · simp only [feedAll]; rw [i3, hsf]
    · simp only [feedAll]; rw [i4, hst]
    · simp only [feedAll]; rw [i5, hse]

theorem feedAll_append (xs ys : List (CnPacket × (Nat → cncodecRet))) :
    ∀ s, feedAll s (xs ++ ys) = feedAll (feedAll s xs) ys := by
  induction xs with
  | nil => intro s; rfl
  | cons x xs ih => intro s; simp only [List.cons_append, feedAll]; exact ih _

/-- `FeedEos` that the accelerator accepts, on a session with a live handle that is not in
`ERROR` and has not sent the EOS, returns true. -/
theorem FeedEos_accepted (s : Mlu200Decoder) (hh : s.handle_ ≠ nullptr)
    (hst : s.status_ ≠ .ERROR) (hs : s.send_eos_ = false) :
    (FeedEos s .Success).1 = .ok true := by
  unfold FeedEos
  rw [if_neg hh, if_neg hst]
  simp [hs]

/-- `ReceiveFrame` only adds to the history. -/
theorem ReceiveFrame_trace_grows (vf : VFormat) (s : Mlu200Decoder) (out : cncodecOutput) :
    ∃ l, (ReceiveFrame vf s out).trace = s.trace ++ l := by
  obtain ⟨m, hm⟩ := ReceiveFrame_timestamp_fields vf s out
  unfold ReceiveFrame
  dsimp only
  rw [hm]
  by_cases h : out.frame.width ≠ 0 ∧ out.frame.height ≠ 0 ∧ out.frame.planeNum ≠ 0 ∧
      s.attr_.frame_callback = true ∧ s.handle_ ≠ nullptr
  · rw [ReceiveFrame_deliver_of_live vf { s with vpu_pts_map_ := m } out.frame _
      ⟨h.1, h.2.1, h.2.2.1⟩ h.2.2.2.1 h.2.2.2.2]
    exact ⟨_, rfl⟩
  · rw [ReceiveFrame_deliver_of_not vf { s with vpu_pts_map_ := m } out.frame _ h]
    exact ⟨[], (List.append_nil _).symm⟩

/-- Delivering frames only adds to the history. -/
theorem deliverAll_trace_grows (vf : VFormat) (kfs : List (Nat × cncodecFrame)) :
    ∀ s, ∃ l, (deliverAll vf s kfs).trace = s.trace ++ l := by
  induction kfs with
  | nil => intro s; exact ⟨[], (List.append_nil _).symm⟩
  | cons kf kfs ih =>
    intro s
    obtain ⟨l1, h1⟩ := ReceiveFrame_trace_grows vf s { pts := kf.1, frame := kf.2 }
    obtain ⟨l2, h2⟩ := ih (ReceiveFrame vf s { pts := kf.1, frame := kf.2 })
    exact ⟨l1 ++ l2, by simp only [deliverAll]; rw [h2, h1, List.append_assoc]⟩

/-- The end-of-stream event only adds to the history. -/
theorem ReceiveEvent_EOS_trace_grows (s : Mlu200Decoder) :
    ∃ l, (ReceiveEvent s .EOS).trace = s.trace ++ l := by
  by_cases h : s.attr_.eos_callback = true
  · exact ⟨[.eos_callback], by simp [ReceiveEvent, ReceiveEOS, h, Mlu200Decoder.emit]⟩
  · exact ⟨[], by simp [ReceiveEvent, ReceiveEOS, h]⟩

/-- The scenario with `N + 2` packets when `N + 1` is a multiple of `2^32`: the last packet
gets the key 0, which the first packet still holds, and overwrites its record; the first frame
delivered then comes with the presentation time of the last packet. -/
theorem scenario_wraps (N : Nat) (hN : (N + 1) % 2 ^ 32 = 0) :
    (wrapPackets N).length = N + 2 ∧
    feedOk video0 (wrapPackets N) = true ∧
    (FeedEos (feedAll video0 (wrapPackets N)) .Success).1 = .ok true ∧
    (wrapFrames N).length = (wrapPackets N).length ∧
    (∀ f ∈ wrapFrames N, f.width ≠ 0 ∧ f.height ≠ 0 ∧ f.planeNum ≠ 0) ∧
    ((wrapPackets N).map (fun pe => pe.1.pts)).head? = some 0 ∧
    (callbackPts (scenario vf0 video0 (wrapPackets N) .Success (wrapFrames N)).trace).head? =
      some 7 := by
  have hall : ∀ pe ∈ wrapPackets N, pe.2 0 = .Success := by
    intro pe h
    simp only [wrapPackets, List.mem_cons, List.mem_append, List.mem_replicate,
      List.mem_singleton, List.not_mem_nil, or_false] at h
    rcases h with h | ⟨_, h⟩ | h <;> (rw [h]; rfl)
  have hall0 : ∀ pe ∈ (packet0 0, ecodeSuccess) :: List.replicate N (packet0 0, ecodeSuccess),
      pe.2 0 = .Success := by
    intro pe h
    simp only [List.mem_cons, List.mem_replicate] at h
    rcases h with h | ⟨_, h⟩ <;> (rw [h]; rfl)
  obtain ⟨g1, _, g3, g4, g5⟩ := feedAll_first_attempt (wrapPackets N) video0 (by decide) rfl rfl
    (by decide) hall
  obtain ⟨_, u2, u3, _, u5⟩ := feedAll_first_attempt
    ((packet0 0, ecodeSuccess) :: List.replicate N (packet0 0, ecodeSuccess)) video0
    (by decide) rfl rfl (by decide) hall0
  simp only [sessionFrame, Prod.mk.injEq] at u3
  have hu : (feedAll video0
      ((packet0 0, ecodeSuccess) :: List.replicate N (packet0 0, ecodeSuccess))).pts_key_ = 0 := by
    rw [u2]
    simp only [List.length_cons, List.length_replicate]
    have : video0.pts_key_ = 0 := rfl
    rw [this, Nat.zero_add]
    exact hN
  have hs1 : feedAll video0 (wrapPackets N) =
      (FeedData (feedAll video0
        ((packet0 0, ecodeSuccess) :: List.replicate N (packet0 0, ecodeSuccess)))
        (packet0 7) ecodeSuccess).2 := by
    have hsplit : wrapPackets N =
        ((packet0 0, ecodeSuccess) :: List.replicate N (packet0 0, ecodeSuccess)) ++
          [(packet0 7, ecodeSuccess)] := rfl
    rw [hsplit, feedAll_append]
    rfl
  have hok7 := FeedData_video_first (feedAll video0
      ((packet0 0, ecodeSuccess) :: List.replicate N (packet0 0, ecodeSuccess)))
      (packet0 7) ecodeSuccess (by rw [u3.1]; decide) (by rw [u5]; rfl) (by rw [u3.2.1]; rfl) rfl
  obtain ⟨m7, _, _⟩ := FeedData_video_ok _ (packet0 7) ecodeSuccess (by rw [u3.2.1]; rfl) hok7
  have hfind : map_find (feedAll video0 (wrapPackets N)).vpu_pts_map_ 0 = some 7 := by
    rw [hs1, m7, hu]
    simp [map_find, map_assign, List.lookup_cons, packet0]
  obtain ⟨e1, e2⟩ := FeedEos_sessionFrame (feedAll video0 (wrapPackets N)) .Success
  rw [g3] at e1
  simp only [sessionFrame, Prod.mk.injEq] at e1 g3
  have hEos : (FeedEos (feedAll video0 (wrapPackets N)) .Success).1 = .ok true :=
    FeedEos_accepted _ (by rw [g3.1]; decide) (by rw [g4]; decide) (by rw [g5]; rfl)
  obtain ⟨finfo, hp, hrf⟩ := ReceiveFrame_video_hit vf0
    (FeedEos (feedAll video0 (wrapPackets N)) .Success).2
    { pts := 0, frame := (out0 500 0).frame } 7 (by rw [e1.2.1]; rfl)
    (by rw [e2]; exact hfind) (by decide) (by rw [e1.2.2.1]; rfl) (by rw [e1.1]; decide)
  have hsc : scenario vf0 video0 (wrapPackets N) .Success (wrapFrames N) =
      ReceiveEvent (deliverAll vf0
        (ReceiveFrame vf0 (FeedEos (feedAll video0 (wrapPackets N)) .Success).2
          { pts := 0, frame := (out0 500 0).frame })
        ((feedKeys (FeedData video0 (packet0 0) ecodeSuccess).2
          (List.replicate N (packet0 0, ecodeSuccess) ++ [(packet0 7, ecodeSuccess)])).zip
          (List.replicate (N + 1) (out0 500 0).frame))) .EOS := rfl
  obtain ⟨l1, h1⟩ := deliverAll_trace_grows vf0
    ((feedKeys (FeedData video0 (packet0 0) ecodeSuccess).2
      (List.replicate N (packet0 0, ecodeSuccess) ++ [(packet0 7, ecodeSuccess)])).zip
      (List.replicate (N + 1) (out0 500 0).frame))
    (ReceiveFrame vf0 (FeedEos (feedAll video0 (wrapPackets N)) .Success).2
      { pts := 0, frame := (out0 500 0).frame })
  obtain ⟨l2, h2⟩ := ReceiveEvent_EOS_trace_grows (deliverAll vf0
    (ReceiveFrame vf0 (FeedEos (feedAll video0 (wrapPackets N)) .Success).2
      { pts := 0, frame := (out0 500 0).frame })
    ((feedKeys (FeedData video0 (packet0 0) ecodeSuccess).2
      (List.replicate N (packet0 0, ecodeSuccess) ++ [(packet0 7, ecodeSuccess)])).zip
      (List.replicate (N + 1) (out0 500 0).frame)))
  have hcb0 : callbackPts (FeedEos (feedAll video0 (wrapPackets N)) .Success).2.trace = [] :=
    e1.2.2.2.1
  refine ⟨by simp [wrapPackets], g1, hEos, by simp [wrapFrames, wrapPackets], ?_, rfl, ?_⟩
  · intro f hf
    simp only [wrapFrames, List.mem_cons, List.mem_replicate] at hf
    rcases hf with h | ⟨_, h⟩ <;> (rw [h]; decide)
  · rw [hsc, h2, h1, hrf]
    have hcat : ∀ a b : List Effect, callbackPts (a ++ b) = callbackPts a ++ callbackPts b :=
      fun a b => List.filterMap_append _ _ _
    simp only [hcat, hcb0, List.nil_append]
    simp [callbackPts, hp]

/-- C11 as stated fails for `n = 2^32 + 1`: on the fresh session `video0`, `2^32` packets with
presentation time 0 and then one with presentation time 7 are fed, each `FeedData` returning
true; `FeedEos` returns true; `2^32 + 1` frames that are not empty are delivered with the keys
returned for the packets, in feed order.  The first packet has presentation time 0, but the
first frame reaches the callback with presentation time 7: the key counter wrapped around and
the last packet overwrote the record of the first. -/
theorem scenario_wraparound_counterexample :
    (wrapPackets (2 ^ 32 - 1)).length = 2 ^ 32 + 1 ∧
    feedOk video0 (wrapPackets (2 ^ 32 - 1)) = true ∧
    (FeedEos (feedAll video0 (wrapPackets (2 ^ 32 - 1))) .Success).1 = .ok true ∧
    (wrapFrames (2 ^ 32 - 1)).length = (wrapPackets (2 ^ 32 - 1)).length ∧
    (∀ f ∈ wrapFrames (2 ^ 32 - 1), f.width ≠ 0 ∧ f.height ≠ 0 ∧ f.planeNum ≠ 0) ∧
    ((wrapPackets (2 ^ 32 - 1)).map (fun pe => pe.1.pts)).head? = some 0 ∧
    (callbackPts (scenario vf0 video0 (wrapPackets (2 ^ 32 - 1)) .Success
      (wrapFrames (2 ^ 32 - 1))).trace).head? = some 7 ∧
    callbackPts (scenario vf0 video0 (wrapPackets (2 ^ 32 - 1)) .Success
      (wrapFrames (2 ^ 32 - 1))).trace ≠ (wrapPackets (2 ^ 32 - 1)).map (fun pe => pe.1.pts) := by
  have h := scenario_wraps (2 ^ 32 - 1) (by norm_num)
  refine ⟨h.1.trans (by norm_num), h.2.1, h.2.2.1, h.2.2.2.1, h.2.2.2.2.1, h.2.2.2.2.2.1,
    h.2.2.2.2.2.2, ?_⟩
  intro heq
  have h7 := h.2.2.2.2.2.2
  rw [heq, h.2.2.2.2.2.1] at h7
  cases h7

end edk
